import Mathlib

/-!
# Gene network construction (`assets/jsx/ReactComponents/Network.js`)

A shallow embedding of `network2js` and of `Network.changeThreshold`.

Conventions of the embedding.

* JavaScript numbers that hold scores are rationals: every decoded score is
  `(u - 32768) / 1000` for an integer `u`, and a threshold is such a score, the
  constant `14`, or one of these moved by the steps of `changeThreshold`.
  `NaN` (the value of `Math.min(14, undefined)`) is `none` in an `Option ℚ`.
* An `ArrayBuffer` is a list of bytes, `Fin 256`.
* A thrown exception is `Except.error`.
* An object reference into the `nodes` array is the index of the node.
* An object used as a map (`hashNodes`, `clusterHash`) is a function from the
  key to an `Option` that gives its own properties. A lookup `hashNodes[id]`
  of a key that is no own property falls through to `Object.prototype`: for
  the function-valued properties listed in `objectPrototypeKeys` it yields
  that function, for any other key `undefined`. The accessor key `__proto__`
  is not modelled, neither as the id of a node nor as a listed id; statements
  on the lookup of an id that is no node id are for networks without it
  (`ProtoFree`).
* The two collaborators that `Network.js` imports, the sort helper
  `js/sort/quicksort` and `AffinityPropagation.getClusters`, are the fields of
  an environment `Env`; every call of `getClusters` is recorded.
-/

namespace GeneNetwork

/-! ## Data model -/

/-- Exceptions raised by the modelled code. -/
inductive JsError where
  /-- `DataView.prototype.getUint16` read past the end of the buffer. -/
  | rangeError
  /-- A property was read from, or set on, `undefined`. -/
  | typeError
  /-- The clustering collaborator threw. -/
  | clusteringFailed
  deriving DecidableEq, Repr

deriving instance DecidableEq for Except

/-- An `ArrayBuffer`. -/
abbrev Buffer := List (Fin 256)

/-- One entry of `network.genes`; only the `id` is read by `network2js`. -/
structure Gene where
  id : String
  deriving DecidableEq, Repr

/-- An element of `js.elements.nodes`: the wrapper `{data: gene}`, on which the
custom group step later sets `customGroups` (`none` is `undefined`). -/
structure Node where
  data : Gene
  customGroups : Option (List Nat)
  deriving DecidableEq, Repr

/-- One entry of `network.groups`. -/
structure CustomGroup where
  name : String
  id : Nat
  genes : List String
  deriving DecidableEq, Repr

/-- The argument of `network2js`. -/
structure Network where
  genes : List Gene
  buffer : Buffer
  groups : List CustomGroup
  deriving DecidableEq, Repr

/-- The `data` object of an element of `js.elements.edges`. -/
structure Edge where
  source : String
  target : String
  weight : ℚ
  deriving DecidableEq, Repr

/-- The `type` tag of a group. -/
inductive GroupType where
  | auto
  | custom
  | cluster
  deriving DecidableEq, Repr

/-- An element of `js.elements.groups`; `none` is an absent property. -/
structure Group where
  name : String
  index_ : Option Nat
  nodes : List String
  type : GroupType
  exemplar : Option String
  deriving DecidableEq, Repr

/-- The value returned by `AffinityPropagation.getClusters`. -/
structure ClusterResult where
  exemplars : List Nat
  clusters : List Nat
  deriving DecidableEq, Repr

/-- The `preference` option of `getClusters`: a number or the string `'min'`. -/
inductive Preference where
  | num (q : ℚ)
  | min
  deriving DecidableEq, Repr

/-- The options object passed to `getClusters`. -/
structure APOptions where
  symmetric : Bool
  preference : Preference
  damping : ℚ
  deriving DecidableEq, Repr

/-- The collaborators of `network2js`. -/
structure Env where
  /-- The in-place sort `quicksort(dataCopy)`: the contents of the array afterwards. -/
  quicksort : List ℚ → List ℚ
  /-- The call `AffinityPropagation.getClusters(data, options)`. -/
  getClusters : List ℚ → APOptions → Except JsError ClusterResult

/-- The object `js` returned by `network2js`. -/
structure NetworkJs where
  nodes : List Node
  edges : List Edge
  groups : List Group
  edgeValueScales : List (List ℚ)
  edgeColorScales : List (List String)
  buffer : Buffer
  threshold : Option ℚ
  deriving DecidableEq, Repr

/-- A run of `network2js`: the calls of `getClusters` it made, in order, and
the value it returned or the exception it raised. -/
structure Run where
  calls : List (List ℚ × APOptions)
  result : Except JsError NetworkJs

/-! ## Decoding the buffer (lines 63-70) -/

/-- `numNodes * (numNodes - 1) / 2`, the length of `data`. -/
def numPairs (numNodes : Nat) : Nat := numNodes * (numNodes - 1) / 2

/-- Big-endian `dataView.getUint16(byteOffset)`: a `RangeError` when the two
bytes are not both inside the buffer. -/
def getUint16 (buffer : Buffer) (byteOffset : Nat) : Except JsError Nat :=
  match buffer[byteOffset]?, buffer[byteOffset + 1]? with
  | some hi, some lo => .ok (256 * hi.val + lo.val)
  | _, _ => .error .rangeError

/-- The loop `for (i ...; i < data.length; i++) data[i] = (getUint16(i * 2) - 32768) / 1000`,
from index `i` on with `n` entries left. -/
def decodeFrom (buffer : Buffer) (i : Nat) : Nat → Except JsError (List ℚ)
  | 0 => .ok []
  | n + 1 =>
    match getUint16 buffer (i * 2) with
    | .error e => .error e
    | .ok u =>
      match decodeFrom buffer (i + 1) n with
      | .error e => .error e
      | .ok rest => .ok ((((u : ℚ) - 32768) / 1000) :: rest)

/-- The decoding step: `data` for a network of `numNodes` nodes. -/
def decodeScores (buffer : Buffer) (numNodes : Nat) : Except JsError (List ℚ) :=
  decodeFrom buffer 0 (numPairs numNodes)

/-! ## Default threshold (lines 72-76) -/

/-- The constant `js.edgeValueScales`. -/
def edgeValueScales : List (List ℚ) := [[0, 12, 15], [0, -12, -15]]

/-- The constant `js.edgeColorScales`. -/
def edgeColorScales : List (List String) :=
  [["#ffffff", "#000000", "#ff3c00"], ["#ffffff", "#00a0d2", "#7a18ec"]]

/-- `Math.min(a, b)` where `a` or `b` may be `undefined` or `NaN`: the result is `NaN` then. -/
def mathMin (a b : Option ℚ) : Option ℚ :=
  match a, b with
  | some x, some y => some (min x y)
  | _, _ => none

/-- Computes `Math.min(_.last(js.edgeValueScales[0]) - 1,
dataCopy[Math.max(0, dataCopy.length - numNodes * 2)])` with `dataCopy` the
sorted copy of `data`. -/
def defaultThreshold (quicksort : List ℚ → List ℚ) (data : List ℚ) (numNodes : Nat) :
    Option ℚ :=
  let dataCopy := quicksort data
  let ceiling := (edgeValueScales[0]?.bind List.getLast?).map (· - 1)
  let index := max (0 : Int) ((dataCopy.length : Int) - (numNodes : Int) * 2)
  mathMin ceiling dataCopy[index.toNat]?

/-! ## Edges (lines 85-102)

The array `isConnected` of lines 79-83 is written by the loop and never read;
it is not part of the returned object and is left out. -/

/-- The test `Math.abs(data[i]) >= threshold`; it is false when either side is
`undefined` or `NaN`. -/
def absGe (score : Option ℚ) (threshold : Option ℚ) : Bool :=
  match score, threshold with
  | some x, some t => decide (t ≤ |x|)
  | _, _ => false

/-- Reads `nodes[k].data.id`; a `TypeError` when `nodes[k]` is `undefined`. -/
def nodeId (nodes : List Node) (k : Nat) : Except JsError String :=
  match nodes[k]? with
  | some node => .ok node.data.id
  | none => .error .typeError

/-- One pass of the body of the inner loop, on the running index `i` and the edges so far. -/
def edgeStep (nodes : List Node) (data : List ℚ) (threshold : Option ℚ) (i1 : Nat)
    (st : Nat × List Edge) (i2 : Nat) : Except JsError (Nat × List Edge) :=
  if absGe data[st.1]? threshold then
    match nodeId nodes i1, nodeId nodes i2, data[st.1]? with
    | .ok source, .ok target, some weight =>
      .ok (st.1 + 1, st.2 ++ [{ source := source, target := target, weight := weight }])
    | .error e, _, _ => .error e
    | _, .error e, _ => .error e
    | _, _, none => .ok (st.1 + 1, st.2)
  else
    .ok (st.1 + 1, st.2)

/-- The inner loop `for (i2 = i1 + 1; i2 < numNodes; i2++)`. -/
def edgeRow (nodes : List Node) (data : List ℚ) (threshold : Option ℚ)
    (st : Nat × List Edge) (i1 : Nat) : Except JsError (Nat × List Edge) :=
  (List.range' (i1 + 1) (nodes.length - (i1 + 1))).foldlM (edgeStep nodes data threshold i1) st

/-- The edge loop: `i = 0`, then `for (i1 = 0; i1 < numNodes - 1; i1++)` over the rows. -/
def buildEdges (nodes : List Node) (data : List ℚ) (threshold : Option ℚ) :
    Except JsError (List Edge) :=
  match (List.range (nodes.length - 1)).foldlM (edgeRow nodes data threshold) (0, []) with
  | .ok st => .ok st.2
  | .error e => .error e

/-! ## Default and custom groups (lines 59-61 and 104-130) -/

/-- The own properties of the object
`js.elements.hashNodes = _.indexBy(nodes, node => node.data.id)`:
a key maps to the last node with that id, and the node is given by its index in `nodes`.
What a key that is no own property yields is settled where the object is read,
in `annotateGene`. -/
def indexBy (nodes : List Node) : String → Option Nat :=
  nodes.enum.foldl
    (fun hash (p : Nat × Node) => fun key => if key = p.2.data.id then some p.1 else hash key)
    (fun _ => none)

/-- The first element of `js.elements.groups`. -/
def allGenesGroup (nodes : List Node) : Group :=
  { name := "All genes", index_ := none, nodes := nodes.map (fun node => node.data.id),
    type := .auto, exemplar := none }

/-- The last element of `js.elements.groups`. -/
def mySelectionGroup : Group :=
  { name := "My selection", index_ := none, nodes := [], type := .auto, exemplar := none }

/-- The group pushed for one entry of `network.groups`. -/
def customGroup (group : CustomGroup) : Group :=
  { name := group.name, index_ := some group.id, nodes := group.genes, type := .custom,
    exemplar := none }

/-- The two statements `if (node.customGroups == undefined) node.customGroups = []`
and `node.customGroups.push(groupId)` on the node `hashNodes[id]`. -/
def pushCustomGroup (groupId : Nat) (node : Node) : Node :=
  match node.customGroups with
  | none => { node with customGroups := some [groupId] }
  | some l => { node with customGroups := some (l ++ [groupId]) }

/-- The names of the function-valued properties that the plain object `hashNodes`
inherits from `Object.prototype` as ECMAScript 2015 defines it, Annex B included:
when no node has the name as its id, `hashNodes[name]` is that function and not
`undefined`. The twelfth property of `Object.prototype`, the accessor `__proto__`,
is not in the list. -/
def objectPrototypeKeys : List String :=
  ["constructor", "toString", "toLocaleString", "valueOf", "hasOwnProperty",
    "isPrototypeOf", "propertyIsEnumerable", "__defineGetter__", "__defineSetter__",
    "__lookupGetter__", "__lookupSetter__"]

/-- The body of the inner `_.forEach(group.genes, function (id) ...)`: creates
`hashNodes[id].customGroups` when it is `undefined`, then pushes `group.id`.
When `id` is an own property of `hashNodes` this is done on the node. When it is
not and `id` names a function inherited from `Object.prototype`, `hashNodes[id]` is
that function: `customGroups` is created on the function and `group.id` pushed
there, nothing is raised and no node changes. For any other `id`, `hashNodes[id]`
is `undefined` and reading `customGroups` from it is a `TypeError`. -/
def annotateGene (hashNodes : String → Option Nat) (groupId : Nat) (nodes : List Node)
    (id : String) : Except JsError (List Node) :=
  match hashNodes id with
  | none => if id ∈ objectPrototypeKeys then .ok nodes else .error .typeError
  | some k =>
    .ok (nodes.modify (pushCustomGroup groupId) k)

/-- The body of `_.forEach(network.groups, function(group) ...)` on the pair of
`js.elements.groups` and `js.elements.nodes`. -/
def addCustomGroup (hashNodes : String → Option Nat) (st : List Group × List Node)
    (group : CustomGroup) : Except JsError (List Group × List Node) :=
  match group.genes.foldlM (annotateGene hashNodes group.id) st.2 with
  | .ok nodes => .ok (st.1 ++ [customGroup group], nodes)
  | .error e => .error e

/-- The custom group step, lines 115-130. -/
def addCustomGroups (hashNodes : String → Option Nat) (customs : List CustomGroup)
    (st : List Group × List Node) : Except JsError (List Group × List Node) :=
  customs.foldlM (addCustomGroup hashNodes) st

/-! ## Clustering (lines 135-171) -/

/-- The options of the first call of `getClusters`. -/
def firstOptions : APOptions :=
  { symmetric := true, preference := .num (-32.768), damping := 0.8 }

/-- The options of the second call of `getClusters`. -/
def secondOptions : APOptions :=
  { symmetric := true, preference := .min, damping := 0.8 }

/-- Lines 137-142: the calls of `getClusters` made, and the final value of `clusters`. -/
def getClustersRetry (env : Env) (data : List ℚ) :
    List (List ℚ × APOptions) × Except JsError ClusterResult :=
  match env.getClusters data firstOptions with
  | .error e => ([(data, firstOptions)], .error e)
  | .ok clusters =>
    if clusters.exemplars.length = 1 then
      ([(data, firstOptions), (data, secondOptions)], env.getClusters data secondOptions)
    else
      ([(data, firstOptions)], .ok clusters)

/-- A cluster group before it is named: `{nodes, type: 'cluster', exemplar}`. -/
structure ClusterGroup where
  nodes : List String
  exemplar : String
  deriving DecidableEq, Repr

/-- The body of `_.forEach(clusters.exemplars, ...)` on `clusterGroups` and
`clusterHash`; a group held in `clusterHash` is given by its index in `clusterGroups`. -/
def addExemplar (nodes : List Node) (st : List ClusterGroup × (Nat → Option Nat))
    (exemplar : Nat) : Except JsError (List ClusterGroup × (Nat → Option Nat)) :=
  match nodeId nodes exemplar with
  | .error e => .error e
  | .ok id =>
    .ok (st.1 ++ [{ nodes := [], exemplar := id }],
      fun key => if key = exemplar then some st.1.length else st.2 key)

/-- The body of `_.forEach(clusters.clusters, function(exemplar, i) ...)`:
`clusterHash[exemplar].nodes.push(nodes[i].data.id)`. -/
def addToCluster (nodes : List Node) (clusterHash : Nat → Option Nat)
    (clusterGroups : List ClusterGroup) (p : Nat × Nat) : Except JsError (List ClusterGroup) :=
  match clusterHash p.2 with
  | none => .error .typeError
  | some g =>
    match nodeId nodes p.1 with
    | .error e => .error e
    | .ok id => .ok (clusterGroups.modify (fun group => { group with nodes := group.nodes ++ [id] }) g)

/-- The call `_.sortBy(xs, key)`: a stable sort, ascending in `key`. -/
def sortBy {α : Type} (key : α → Int) (xs : List α) : List α :=
  xs.insertionSort (fun a b => key a ≤ key b)

/-- The naming loop of lines 164-167 on the group at position `i`. -/
def nameCluster (p : Nat × ClusterGroup) : Group :=
  { name := "Cluster " ++ toString (p.1 + 1), index_ := some p.1, nodes := p.2.nodes,
    type := .cluster, exemplar := some p.2.exemplar }

/-- Lines 144-160: one group per exemplar, then every node pushed onto the
group of its exemplar. -/
def fillClusterGroups (nodes : List Node) (clusters : ClusterResult) :
    Except JsError (List ClusterGroup) :=
  match clusters.exemplars.foldlM (addExemplar nodes) ([], fun _ => none) with
  | .error e => .error e
  | .ok (clusterGroups, clusterHash) =>
    clusters.clusters.enum.foldlM (addToCluster nodes clusterHash) clusterGroups

/-- Lines 144-167: the cluster groups for the final clustering result, sorted and named. -/
def createClusterGroups (nodes : List Node) (clusters : ClusterResult) :
    Except JsError (List Group) :=
  match fillClusterGroups nodes clusters with
  | .error e => .error e
  | .ok filled =>
    .ok ((sortBy (fun group => -(group.nodes.length : Int)) filled).enum.map nameCluster)

/-! ## `network2js` -/

/-- The array `js.elements.nodes = _.map(network.genes, gene => ({data: gene}))`. -/
def wrapGenes (genes : List Gene) : List Node :=
  genes.map (fun gene => { data := gene, customGroups := none })

/-- Lines 135-171, the block `if (numNodes > 4) ...`: the calls of `getClusters`
made and the cluster groups appended to `js.elements.groups` (none when the
block is skipped). -/
def clusterStep (env : Env) (data : List ℚ) (nodes : List Node) (numNodes : Nat) :
    List (List ℚ × APOptions) × Except JsError (List Group) :=
  if numNodes > 4 then
    match getClustersRetry env data with
    | (calls, .error e) => (calls, .error e)
    | (calls, .ok clusters) => (calls, createClusterGroups nodes clusters)
  else
    ([], .ok [])

/-- The function `network2js(network)`. -/
def network2js (env : Env) (network : Network) : Run :=
  let nodes : List Node := wrapGenes network.genes
  let hashNodes := indexBy nodes
  let numNodes := nodes.length
  match decodeScores network.buffer numNodes with
  | .error e => { calls := [], result := .error e }
  | .ok data =>
    let threshold := defaultThreshold env.quicksort data numNodes
    match buildEdges nodes data threshold with
    | .error e => { calls := [], result := .error e }
    | .ok edges =>
      match addCustomGroups hashNodes network.groups ([allGenesGroup nodes], nodes) with
      | .error e => { calls := [], result := .error e }
      | .ok (groups, nodes) =>
        match clusterStep env data nodes numNodes with
        | (calls, .error e) => { calls := calls, result := .error e }
        | (calls, .ok clusterGroups) =>
          { calls := calls
            result := .ok
              { nodes := nodes, edges := edges
                groups := groups ++ clusterGroups ++ [mySelectionGroup]
                edgeValueScales := edgeValueScales, edgeColorScales := edgeColorScales
                buffer := network.buffer, threshold := threshold } }

/-! ## `Network.changeThreshold` (lines 414-450) -/

/-- The part of the component state that `changeThreshold` reads: `threshold`,
`data`, `selectedTissue`, and the networks stored under a tissue name. -/
structure State where
  threshold : Option ℚ
  data : NetworkJs
  selectedTissue : String
  tissues : String → Option NetworkJs

/-- The lookup `this.state[key]` of a stored network. -/
def State.network (s : State) (key : String) : Option NetworkJs :=
  if key = "data" then some s.data else s.tissues key

/-- A call of `changeThreshold`: the state once the queued `setState` is
applied, and the argument of `this.state.network.updateEdges` (or the exception
raised before that call). -/
structure ThresholdRun where
  state : State
  updateEdges : Except JsError (List Edge)

/-- The method `changeThreshold(n)`, called from the click handler of the edge
legend.  The update of `threshold` is queued by `setState` and applied once the
handler has returned, so line 435 reads the threshold of before the call; lines
423-426 and 432-448 repeat lines 67-70 and 86-102 of `network2js` on
`this.state.data.elements.nodes`, the buffer of the selected tissue and
`this.state.threshold`. -/
def changeThreshold (s : State) (n : ℚ) : ThresholdRun :=
  let numNodes := s.data.nodes.length
  { state := { s with threshold := s.threshold.map (· + n) }
    updateEdges :=
      match s.network s.selectedTissue with
      | none => .error .typeError
      | some tissue =>
        match decodeScores tissue.buffer numNodes with
        | .error e => .error e
        | .ok data => buildEdges s.data.nodes data s.threshold }

/-! ## Reference definitions used by the statements -/

/-- Modelled from the spec: the sort helper `js/sort/quicksort`, which is not
among the sources; it "sorts a copy of the decoded scores ascending". -/
def quicksortModel (xs : List ℚ) : List ℚ := xs.insertionSort (· ≤ ·)

/-- The encoder the decoding round trip is stated against: the integer `m` (a
score in thousandths) as the two bytes of the big-endian unsigned 16-bit
integer `m + 32768`. -/
def encodeUint16 (m : Int) : Buffer :=
  let u := (m + 32768).toNat
  [⟨u / 256 % 256, Nat.mod_lt _ (by decide)⟩, ⟨u % 256, Nat.mod_lt _ (by decide)⟩]

/-- The encoder of a whole score list, entry after entry. -/
def encodeScores : List Int → Buffer
  | [] => []
  | m :: ms => encodeUint16 m ++ encodeScores ms

/-- The flat position of the pair `(i1, i2)` in the score array of a network of
`numNodes` nodes. -/
def flatPos (numNodes i1 i2 : Nat) : Nat :=
  i1 * numNodes - i1 * (i1 + 1) / 2 + (i2 - i1 - 1)

/-- The pairs `(i1, i2)` with `i1 < i2 < numNodes` in row-major order: `i1`
ascending, then `i2` ascending. -/
def upperPairs (numNodes : Nat) : List (Nat × Nat) :=
  (List.range numNodes).flatMap (fun i1 =>
    ((List.range numNodes).filter (fun i2 => i1 < i2)).map (fun i2 => (i1, i2)))

/-- The edge of the nodes `i1` and `i2` when the score at `pos` passes the threshold `T`. -/
def pairEdge (ids : List String) (data : List ℚ) (T : ℚ) (i1 i2 pos : Nat) : Option Edge :=
  match ids[i1]?, ids[i2]?, data[pos]? with
  | some source, some target, some weight =>
    if T ≤ |weight| then some { source := source, target := target, weight := weight } else none
  | _, _, _ => none

/-- The edge list the specification describes: the pairs of `upperPairs` whose
score at the flat position has absolute value at least `T`. -/
def thresholdEdges (ids : List String) (data : List ℚ) (T : ℚ) : List Edge :=
  (upperPairs ids.length).filterMap
    (fun p => pairEdge ids data T p.1 p.2 (flatPos ids.length p.1 p.2))

/-- The ids of the custom groups that list the gene `id`, in the order the
groups are supplied, one entry per occurrence of `id` in a group's gene list. -/
def groupIdsOf (customs : List CustomGroup) (id : String) : List Nat :=
  customs.flatMap (fun group => (group.genes.filter (fun gene => gene = id)).map (fun _ => group.id))

/-- The group ids pushed onto the node of index `k` by the custom group step:
one per listed gene that `hashNodes` resolves to `k`. -/
def pushedIds (hashNodes : String → Option Nat) (customs : List CustomGroup) (k : Nat) :
    List Nat :=
  customs.flatMap (fun group =>
    (group.genes.filter (fun gene => hashNodes gene = some k)).map (fun _ => group.id))

/-- A node after the group ids `ids` have been pushed onto its `customGroups`, one by one. -/
def annotate (ids : List Nat) (node : Node) : Node :=
  ids.foldl (fun n groupId => pushCustomGroup groupId n) node

/-- Every gene id listed by a custom group is the id of a node. -/
def GroupsKnown (net : Network) : Prop :=
  ∀ group ∈ net.groups, ∀ id ∈ group.genes, id ∈ net.genes.map (fun gene => gene.id)

instance (net : Network) : Decidable (GroupsKnown net) := by
  unfold GroupsKnown
  infer_instance

/-- The key `__proto__` is neither the id of a gene nor listed by a custom group:
`hashNodes` then has `Object.prototype` as its prototype and a lookup never goes
through the accessor. -/
def ProtoFree (net : Network) : Prop :=
  "__proto__" ∉ net.genes.map (fun gene => gene.id) ∧
    ∀ group ∈ net.groups, "__proto__" ∉ group.genes

instance (net : Network) : Decidable (ProtoFree net) := by
  unfold ProtoFree
  infer_instance

/-- Lines 65-70 and 85-102 of `network2js` run with `threshold` in the place of
`js.threshold`: the decoding loop, then the edge loop. -/
def network2jsEdgesAt (network : Network) (threshold : Option ℚ) : Except JsError (List Edge) :=
  match decodeScores network.buffer (wrapGenes network.genes).length with
  | .error e => .error e
  | .ok data => buildEdges (wrapGenes network.genes) data threshold

/-- The value `network2js` returns after its first stages gave `data`, `edges`,
`groups` and `nodes`, when `final` is the outcome of the call of `getClusters`
whose result is kept in `clusters`. -/
def resultOfClusters (env : Env) (network : Network) (data : List ℚ) (edges : List Edge)
    (groups : List Group) (nodes : List Node) (final : Except JsError ClusterResult) :
    Except JsError NetworkJs :=
  match final with
  | .error e => .error e
  | .ok clusters =>
    match createClusterGroups nodes clusters with
    | .error e => .error e
    | .ok clusterGroups =>
      .ok { nodes := nodes, edges := edges
            groups := groups ++ clusterGroups ++ [mySelectionGroup]
            edgeValueScales := edgeValueScales, edgeColorScales := edgeColorScales
            buffer := network.buffer
            threshold := defaultThreshold env.quicksort data network.genes.length }

/-- The id of the node of index `k`; the empty string stands for an index
outside the array and is met by no statement below. -/
def idAt (nodes : List Node) (k : Nat) : String :=
  match nodes[k]? with
  | some node => node.data.id
  | none => ""

/-- The ids of the nodes `i` with `clusters[i] = e`, in ascending order of `i`. -/
def clusterMembers (nodes : List Node) (clusters : List Nat) (e : Nat) : List String :=
  (clusters.enum.filter (fun p => p.2 = e)).map (fun p => idAt nodes p.1)

/-- One group per exemplar, in the order of the exemplar list, holding the
nodes assigned to the exemplar. -/
def clustersOf (nodes : List Node) (clusters : ClusterResult) : List ClusterGroup :=
  clusters.exemplars.map (fun e =>
    { nodes := clusterMembers nodes clusters.clusters e, exemplar := idAt nodes e })

/-! ## Example inputs -/

/-- A clustering collaborator that finds one exemplar with the fixed
preference and two exemplars with the preference `'min'`. -/
def exampleGetClusters (_ : List ℚ) (options : APOptions) : Except JsError ClusterResult :=
  match options.preference with
  | .num _ => .ok { exemplars := [2], clusters := [2, 2, 2, 2, 2] }
  | .min => .ok { exemplars := [0, 3], clusters := [0, 0, 3, 3, 3] }

/-- The collaborators used by the examples. -/
def exampleEnv : Env := { quicksort := quicksortModel, getClusters := exampleGetClusters }

/-- A network of five genes with two custom groups. -/
def exampleNetwork : Network :=
  { genes := [⟨"a"⟩, ⟨"b"⟩, ⟨"c"⟩, ⟨"d"⟩, ⟨"e"⟩]
    buffer := encodeScores [1000, -2000, 3000, 0, 5, 6, 7, 8, 9, 10]
    groups := [⟨"mine", 7, ["b", "a"]⟩, ⟨"other", 9, ["b"]⟩] }

/-- A network of three genes with no custom group. -/
def smallNetwork : Network :=
  { genes := [⟨"a"⟩, ⟨"b"⟩, ⟨"c"⟩]
    buffer := encodeScores [1000, -2000, 3000]
    groups := [] }

/-- A network of three genes whose buffer lacks its last byte. -/
def shortNetwork : Network :=
  { genes := [⟨"a"⟩, ⟨"b"⟩, ⟨"c"⟩]
    buffer := [131, 232, 120, 48, 139]
    groups := [] }

/-- A network of three genes whose buffer has two bytes too many. -/
def longNetwork : Network :=
  { genes := [⟨"a"⟩, ⟨"b"⟩, ⟨"c"⟩]
    buffer := [131, 232, 120, 48, 139, 184, 255, 255]
    groups := [] }

/-- A network of six genes: fifteen scores, the default threshold is the fourth smallest. -/
def sixNetwork : Network :=
  { genes := [⟨"a"⟩, ⟨"b"⟩, ⟨"c"⟩, ⟨"d"⟩, ⟨"e"⟩, ⟨"f"⟩]
    buffer := encodeScores
      [1000, -2000, 3000, 0, 5, 6, 7, 8, 9, 10, -7000, 15500, 20, 30, -40]
    groups := [] }

/-- The scores the buffer of `sixNetwork` decodes to. -/
def sixScores : List ℚ :=
  [1, -2, 3, 0, 5 / 1000, 6 / 1000, 7 / 1000, 8 / 1000, 9 / 1000, 10 / 1000, -7, 155 / 10,
    20 / 1000, 30 / 1000, -40 / 1000]

/-- A network of one gene: no pair, an empty score array. -/
def oneNetwork : Network :=
  { genes := [⟨"a"⟩], buffer := [], groups := [⟨"mine", 7, ["a"]⟩] }

/-- The five-gene network with a custom group that lists `z`, the id of no node. -/
def unknownNetwork : Network :=
  { exampleNetwork with groups := [⟨"mine", 7, ["b", "a"]⟩, ⟨"other", 9, ["b", "z"]⟩] }

/-- The five-gene network with a custom group that lists `constructor`, the id of
no node and the name of a function that `hashNodes` inherits. -/
def constructorNetwork : Network :=
  { exampleNetwork with
    groups := [⟨"mine", 7, ["b", "a"]⟩, ⟨"other", 9, ["b", "constructor"]⟩] }

/-- A clustering collaborator that throws. -/
def failingEnv : Env :=
  { quicksort := quicksortModel, getClusters := fun _ _ => .error .clusteringFailed }

/-- A clustering collaborator that finds no exemplar and yet assigns every node. -/
def noExemplarEnv : Env :=
  { quicksort := quicksortModel
    getClusters := fun _ _ => .ok { exemplars := [], clusters := [0, 0, 0, 0, 0] } }

/-- A clustering collaborator that returns two empty arrays. -/
def emptyEnv : Env :=
  { quicksort := quicksortModel
    getClusters := fun _ _ => .ok { exemplars := [], clusters := [] } }

/-- The object `network2js` returns on `smallNetwork`. -/
def smallJs : NetworkJs :=
  { nodes := wrapGenes [⟨"a"⟩, ⟨"b"⟩, ⟨"c"⟩]
    edges := [⟨"a", "b", 1⟩, ⟨"a", "c", -2⟩, ⟨"b", "c", 3⟩]
    groups := [allGenesGroup (wrapGenes [⟨"a"⟩, ⟨"b"⟩, ⟨"c"⟩]), mySelectionGroup]
    edgeValueScales := edgeValueScales
    edgeColorScales := edgeColorScales
    buffer := encodeScores [1000, -2000, 3000]
    threshold := some (-2) }

/-- The component state once `smallNetwork` is drawn and the threshold has been moved to `2`. -/
def clickedState : State :=
  { threshold := some 2, data := smallJs, selectedTissue := "data", tissues := fun _ => none }

/-! ## Lemmas on the edge loop -/

theorem Except.ok_bind {ε α β : Type} (a : α) (f : α → Except ε β) :
    (Except.ok a >>= f) = f a := rfl

theorem nodeId_eq (nodes : List Node) (k : Nat) :
    nodeId nodes k = match (nodes.map (fun node => node.data.id))[k]? with
      | some id => .ok id
      | none => .error .typeError := by
  unfold nodeId
  rw [List.getElem?_map]
  cases nodes[k]? <;> rfl

theorem edgeStep_eq (nodes : List Node) (data : List ℚ) (T : ℚ) (i1 i2 i : Nat)
    (es : List Edge) (h1 : i1 < nodes.length) (h2 : i2 < nodes.length) :
    edgeStep nodes data (some T) i1 (i, es) i2
      = .ok (i + 1, es ++ (pairEdge (nodes.map (fun node => node.data.id)) data T i1 i2 i).toList) := by
  have e1 : (nodes.map (fun node => node.data.id))[i1]? = some (nodes.get ⟨i1, h1⟩).data.id := by
    rw [List.getElem?_map, List.getElem?_eq_getElem h1]; rfl
  have e2 : (nodes.map (fun node => node.data.id))[i2]? = some (nodes.get ⟨i2, h2⟩).data.id := by
    rw [List.getElem?_map, List.getElem?_eq_getElem h2]; rfl
  unfold edgeStep pairEdge
  rw [nodeId_eq, nodeId_eq, e1, e2]
  cases hd : data[i]? with
  | none => simp [absGe]
  | some w =>
    by_cases hT : T ≤ |w|
    · simp [absGe, hT]
    · simp [absGe, hT]

theorem edgeRow_loop (nodes : List Node) (data : List ℚ) (T : ℚ) (i1 : Nat)
    (h1 : i1 < nodes.length) (n : Nat) :
    ∀ (s i : Nat) (es : List Edge), s + n ≤ nodes.length →
      (List.range' s n).foldlM (edgeStep nodes data (some T) i1) (i, es)
        = .ok (i + n, es ++ (List.range' s n).filterMap (fun i2 =>
            pairEdge (nodes.map (fun node => node.data.id)) data T i1 i2 (i + (i2 - s)))) := by
  induction n with
  | zero => intro s i es _; simp [pure, Except.pure]
  | succ n ih =>
    intro s i es hs
    rw [List.range'_succ, List.foldlM_cons, edgeStep_eq nodes data T i1 s i es h1 (by omega),
      Except.ok_bind, ih (s + 1) (i + 1) _ (by omega)]
    have hc : (List.range' (s + 1) n).filterMap (fun i2 =>
          pairEdge (nodes.map (fun node => node.data.id)) data T i1 i2 (i + 1 + (i2 - (s + 1))))
        = (List.range' (s + 1) n).filterMap (fun i2 =>
          pairEdge (nodes.map (fun node => node.data.id)) data T i1 i2 (i + (i2 - s))) := by
      apply List.filterMap_congr
      intro i2 hi2
      have := (List.mem_range'_1.mp hi2).1
      congr 1
      omega
    rw [hc, List.filterMap_cons]
    cases hp : pairEdge (nodes.map (fun node => node.data.id)) data T i1 s (i + (s - s)) with
    | none =>
      simp only [Nat.sub_self, Nat.add_zero] at hp
      simp [hp, Nat.add_assoc, Nat.add_comm 1 n]
    | some e =>
      simp only [Nat.sub_self, Nat.add_zero] at hp
      simp [hp, Nat.add_assoc, Nat.add_comm 1 n]

/-- The running index at the start of row `i1`. -/
theorem flatPos_row (numNodes i1 i2 : Nat) :
    flatPos numNodes i1 i2 = flatPos numNodes i1 (i1 + 1) + (i2 - (i1 + 1)) := by
  unfold flatPos
  omega

theorem triangle_succ (k : Nat) : (k + 1) * (k + 1 + 1) / 2 = k * (k + 1) / 2 + (k + 1) := by
  have h : (k + 1) * (k + 1 + 1) = k * (k + 1) + 2 * (k + 1) := by ring
  rw [h, Nat.add_mul_div_left _ _ (by decide : 0 < 2)]

theorem triangle_le (k numNodes : Nat) (h : k < numNodes) : k * (k + 1) / 2 ≤ k * numNodes := by
  calc k * (k + 1) / 2 ≤ k * (k + 1) := Nat.div_le_self _ _
    _ ≤ k * numNodes := Nat.mul_le_mul_left _ h

theorem flatPos_succ_row (numNodes k : Nat) (h : k < numNodes) :
    flatPos numNodes (k + 1) (k + 1 + 1)
      = flatPos numNodes k (k + 1) + (numNodes - (k + 1)) := by
  unfold flatPos
  have h1 := triangle_succ k
  have h2 := triangle_le k numNodes h
  have h3 : (k + 1) * numNodes = k * numNodes + numNodes := by ring
  rw [h1, h3]
  omega

theorem flatPos_zero (numNodes : Nat) : flatPos numNodes 0 1 = 0 := by
  simp [flatPos]

theorem numPairs_succ (m : Nat) : numPairs (m + 1) = numPairs m + m := by
  unfold numPairs
  cases m with
  | zero => rfl
  | succ j =>
    have h := triangle_succ j
    simp only [Nat.add_sub_cancel]
    rw [Nat.mul_comm (j + 1 + 1) (j + 1), h, Nat.mul_comm (j + 1) j]

/-- Rows `0..k` and the triangle below them make up the whole score array. -/
theorem flatPos_full (numNodes k : Nat) (h : k < numNodes) :
    flatPos numNodes k (k + 1) + (numNodes - (k + 1)) + numPairs (numNodes - (k + 1))
      = numPairs numNodes := by
  induction k with
  | zero =>
    rw [flatPos_zero]
    obtain ⟨m, rfl⟩ : ∃ m, numNodes = m + 1 := ⟨numNodes - 1, by omega⟩
    rw [numPairs_succ]
    simp
    omega
  | succ k ih =>
    have ih := ih (by omega)
    rw [flatPos_succ_row _ _ (by omega)]
    obtain ⟨m, hm⟩ : ∃ m, numNodes - (k + 1) = m + 1 := ⟨numNodes - (k + 1) - 1, by omega⟩
    have hm2 : numNodes - (k + 1 + 1) = m := by omega
    rw [hm, numPairs_succ] at ih
    rw [hm2]
    rw [hm]
    omega

theorem flatPos_lt (numNodes i1 i2 : Nat) (h1 : i1 < i2) (h2 : i2 < numNodes) :
    flatPos numNodes i1 i2 < numPairs numNodes := by
  have h := flatPos_full numNodes i1 (by omega)
  rw [flatPos_row]
  omega

theorem filter_lt_range (n i1 : Nat) :
    (List.range n).filter (fun i2 => decide (i1 < i2)) = List.range' (i1 + 1) (n - (i1 + 1)) := by
  induction n with
  | zero => simp
  | succ n ih =>
    rw [List.range_succ, List.filter_append, ih]
    by_cases h : i1 < n
    · have e : n + 1 - (i1 + 1) = (n - (i1 + 1)) + 1 := by omega
      rw [e, List.range'_concat]
      simp [h]
      omega
    · have e : n + 1 - (i1 + 1) = 0 := by omega
      have e2 : n - (i1 + 1) = 0 := by omega
      simp [h, e, e2]

theorem mem_upperPairs (numNodes : Nat) (p : Nat × Nat) :
    p ∈ upperPairs numNodes ↔ p.1 < p.2 ∧ p.2 < numNodes := by
  unfold upperPairs
  simp only [List.mem_flatMap, List.mem_range, List.mem_map, List.mem_filter, decide_eq_true_eq]
  constructor
  · rintro ⟨i1, _, i2, ⟨h2, h12⟩, rfl⟩
    exact ⟨h12, h2⟩
  · rintro ⟨h12, h2⟩
    exact ⟨p.1, by omega, p.2, ⟨h2, h12⟩, rfl⟩

theorem filterMap_flatMap {α β γ : Type} (l : List α) (f : α → List β) (g : β → Option γ) :
    (l.flatMap f).filterMap g = l.flatMap (fun a => (f a).filterMap g) := by
  induction l with
  | nil => rfl
  | cons a l ih => simp [List.flatMap_cons, List.filterMap_append, ih]

theorem thresholdEdges_rows (ids : List String) (data : List ℚ) (T : ℚ) :
    thresholdEdges ids data T
      = (List.range (ids.length - 1)).flatMap (fun i1 =>
          (List.range' (i1 + 1) (ids.length - (i1 + 1))).filterMap (fun i2 =>
            pairEdge ids data T i1 i2 (flatPos ids.length i1 i2))) := by
  unfold thresholdEdges upperPairs
  rw [filterMap_flatMap]
  have hrow : ∀ i1, (((List.range ids.length).filter (fun i2 => decide (i1 < i2))).map
        (fun i2 => (i1, i2))).filterMap
          (fun p => pairEdge ids data T p.1 p.2 (flatPos ids.length p.1 p.2))
      = (List.range' (i1 + 1) (ids.length - (i1 + 1))).filterMap (fun i2 =>
            pairEdge ids data T i1 i2 (flatPos ids.length i1 i2)) := by
    intro i1
    rw [List.filterMap_map, filter_lt_range]
    rfl
  simp only [hrow]
  cases hn : ids.length with
  | zero => simp
  | succ n =>
    rw [List.range_succ, List.flatMap_append]
    simp

theorem edgeRow_eq (nodes : List Node) (data : List ℚ) (T : ℚ) (i1 : Nat) (es : List Edge)
    (h1 : i1 < nodes.length) :
    edgeRow nodes data (some T) (flatPos nodes.length i1 (i1 + 1), es) i1
      = .ok (flatPos nodes.length i1 (i1 + 1) + (nodes.length - (i1 + 1)),
          es ++ (List.range' (i1 + 1) (nodes.length - (i1 + 1))).filterMap (fun i2 =>
            pairEdge (nodes.map (fun node => node.data.id)) data T i1 i2
              (flatPos nodes.length i1 i2))) := by
  unfold edgeRow
  rw [edgeRow_loop nodes data T i1 h1 _ _ _ _ (by omega)]
  congr 2
  congr 1
  apply List.filterMap_congr
  intro i2 _
  rw [flatPos_row nodes.length i1 i2]

theorem edgeRows_eq (nodes : List Node) (data : List ℚ) (T : ℚ) (k : Nat) :
    k + 1 ≤ nodes.length ∨ k = 0 →
      (List.range k).foldlM (edgeRow nodes data (some T)) (0, [])
        = .ok (flatPos nodes.length k (k + 1),
            (List.range k).flatMap (fun i1 =>
              (List.range' (i1 + 1) (nodes.length - (i1 + 1))).filterMap (fun i2 =>
                pairEdge (nodes.map (fun node => node.data.id)) data T i1 i2
                  (flatPos nodes.length i1 i2)))) := by
  induction k with
  | zero => intro _; simp [flatPos_zero, pure, Except.pure]
  | succ k ih =>
    intro hk
    have hk1 : k + 1 + 1 ≤ nodes.length := by omega
    rw [List.range_succ, List.foldlM_append, ih (Or.inl (by omega)), Except.ok_bind,
      List.foldlM_cons, edgeRow_eq nodes data T k _ (by omega), Except.ok_bind,
      List.foldlM_nil, flatPos_succ_row _ _ (by omega)]
    simp [pure, Except.pure, List.flatMap_append]

theorem buildEdges_eq (nodes : List Node) (data : List ℚ) (T : ℚ) :
    buildEdges nodes data (some T)
      = .ok (thresholdEdges (nodes.map (fun node => node.data.id)) data T) := by
  unfold buildEdges
  rw [edgeRows_eq nodes data T (nodes.length - 1) (by omega), thresholdEdges_rows]
  simp

/-! ## Lemmas on the decoding loop -/

theorem getUint16_ok (buffer : Buffer) (off : Nat) (h : off + 1 < buffer.length) :
    getUint16 buffer off
      = .ok (256 * (buffer.get ⟨off, by omega⟩).val + (buffer.get ⟨off + 1, h⟩).val) := by
  unfold getUint16
  rw [List.getElem?_eq_getElem (by omega : off < buffer.length), List.getElem?_eq_getElem h]
  rfl

theorem getUint16_error (buffer : Buffer) (off : Nat) (h : buffer.length ≤ off + 1) :
    getUint16 buffer off = .error .rangeError := by
  unfold getUint16
  rw [List.getElem?_eq_none h]
  cases buffer[off]? <;> rfl

theorem getUint16_congr (b1 b2 : Buffer) (off : Nat)
    (h0 : b1[off]? = b2[off]?) (h1 : b1[off + 1]? = b2[off + 1]?) :
    getUint16 b1 off = getUint16 b2 off := by
  unfold getUint16
  rw [h0, h1]

theorem decodeFrom_congr (b1 b2 : Buffer) (n : Nat) :
    ∀ i, (∀ j, j < 2 * (i + n) → b1[j]? = b2[j]?) → decodeFrom b1 i n = decodeFrom b2 i n := by
  induction n with
  | zero => intro i _; rfl
  | succ n ih =>
    intro i h
    simp only [decodeFrom]
    rw [getUint16_congr b1 b2 (i * 2) (h _ (by omega)) (h _ (by omega)),
      ih (i + 1) (fun j hj => h j (by omega))]

theorem decodeFrom_error (buffer : Buffer) (n : Nat) :
    ∀ i, 0 < n → buffer.length < 2 * (i + n) →
      decodeFrom buffer i n = .error .rangeError := by
  induction n with
  | zero => intro i h; omega
  | succ n ih =>
    intro i _ hlen
    simp only [decodeFrom]
    by_cases hb : buffer.length ≤ i * 2 + 1
    · rw [getUint16_error buffer _ hb]
    · rw [getUint16_ok buffer _ (by omega), ih (i + 1) (by omega) (by omega)]

theorem decodeFrom_ok (buffer : Buffer) (n : Nat) :
    ∀ i, 2 * (i + n) ≤ buffer.length →
      ∃ data, decodeFrom buffer i n = .ok data ∧ data.length = n ∧
        ∀ k, k < n → ∃ hi lo, buffer[2 * (i + k)]? = some hi ∧
          buffer[2 * (i + k) + 1]? = some lo ∧
          data[k]? = some ((256 * (hi.val : ℚ) + (lo.val : ℚ) - 32768) / 1000) := by
  induction n with
  | zero => intro i _; exact ⟨[], rfl, rfl, fun k hk => by omega⟩
  | succ n ih =>
    intro i hlen
    obtain ⟨rest, hrest, hl, hk⟩ := ih (i + 1) (by omega)
    have h1 : i * 2 + 1 < buffer.length := by omega
    refine ⟨(((256 * (buffer.get ⟨i * 2, by omega⟩).val + (buffer.get ⟨i * 2 + 1, h1⟩).val : Nat) : ℚ)
      - 32768) / 1000 :: rest, ?_, ?_, ?_⟩
    · simp only [decodeFrom]
      rw [getUint16_ok buffer _ h1, hrest]
    · simp [hl]
    · intro k hkn
      cases k with
      | zero =>
        refine ⟨buffer.get ⟨i * 2, by omega⟩, buffer.get ⟨i * 2 + 1, by omega⟩, ?_, ?_, ?_⟩
        · rw [List.getElem?_eq_getElem (by omega)]; simp [Nat.mul_comm]
        · rw [List.getElem?_eq_getElem (by omega)]; simp [Nat.mul_comm]
        · simp
      | succ k =>
        obtain ⟨hi, lo, h1, h2, h3⟩ := hk k (by omega)
        refine ⟨hi, lo, ?_, ?_, ?_⟩
        · rw [← h1]; congr 1; omega
        · rw [← h2]; congr 1; omega
        · simpa using h3

theorem decodeFrom_shift (a b : Fin 256) (buffer : Buffer) (n : Nat) :
    ∀ i, decodeFrom (a :: b :: buffer) (i + 1) n = decodeFrom buffer i n := by
  induction n with
  | zero => intro i; rfl
  | succ n ih =>
    intro i
    simp only [decodeFrom]
    have hu : getUint16 (a :: b :: buffer) ((i + 1) * 2) = getUint16 buffer (i * 2) := by
      unfold getUint16
      have e : (i + 1) * 2 = i * 2 + 1 + 1 := by ring
      rw [e]
      simp only [List.getElem?_cons_succ]
    rw [hu, ih (i + 1)]

theorem getUint16_encode (m : Int) (rest : Buffer) (h1 : -32768 ≤ m) (h2 : m ≤ 32767) :
    getUint16 (encodeUint16 m ++ rest) (0 * 2) = .ok (m + 32768).toNat := by
  unfold getUint16 encodeUint16
  simp only [Nat.zero_mul, List.cons_append, List.nil_append, List.getElem?_cons_zero,
    Nat.zero_add, List.getElem?_cons_succ]
  congr 1
  omega

theorem decodeFrom_encode (ms : List Int) (hms : ∀ m ∈ ms, -32768 ≤ m ∧ m ≤ 32767) :
    decodeFrom (encodeScores ms) 0 ms.length = .ok (ms.map (fun m => (m : ℚ) / 1000)) := by
  induction ms with
  | nil => rfl
  | cons m ms ih =>
    obtain ⟨h1, h2⟩ := hms m (List.mem_cons_self _ _)
    have ih := ih (fun x hx => hms x (List.mem_cons_of_mem _ hx))
    simp only [encodeScores, List.length_cons, decodeFrom]
    rw [getUint16_encode m _ h1 h2]
    have hs : decodeFrom (encodeUint16 m ++ encodeScores ms) (0 + 1) ms.length
        = decodeFrom (encodeScores ms) 0 ms.length := decodeFrom_shift _ _ _ _ 0
    rw [hs, ih]
    simp only [List.map_cons]
    congr 2
    have hc : (((m + 32768).toNat : Nat) : ℚ) = (m : ℚ) + 32768 := by
      have : (((m + 32768).toNat : Nat) : Int) = m + 32768 := Int.toNat_of_nonneg (by omega)
      exact_mod_cast this
    rw [hc]
    ring

/-! ## The stages of `network2js` -/

theorem edgeStep_nan (nodes : List Node) (data : List ℚ) (i1 i2 : Nat) (st : Nat × List Edge) :
    edgeStep nodes data none i1 st i2 = .ok (st.1 + 1, st.2) := by
  unfold edgeStep
  have h : absGe data[st.1]? none = false := by cases data[st.1]? <;> rfl
  simp [h]

theorem edgeRow_nan (nodes : List Node) (data : List ℚ) (i1 : Nat) (l : List Nat) :
    ∀ st : Nat × List Edge,
      l.foldlM (edgeStep nodes data none i1) st = .ok (st.1 + l.length, st.2) := by
  induction l with
  | nil => intro st; rfl
  | cons a l ih =>
    intro st
    rw [List.foldlM_cons, edgeStep_nan, Except.ok_bind, ih]
    simp [Nat.add_assoc, Nat.add_comm 1]

theorem edgeRows_nan (nodes : List Node) (data : List ℚ) (l : List Nat) :
    ∀ st : Nat × List Edge,
      ∃ i, l.foldlM (edgeRow nodes data none) st = .ok (i, st.2) := by
  induction l with
  | nil => intro st; exact ⟨st.1, rfl⟩
  | cons a l ih =>
    intro st
    rw [List.foldlM_cons]
    unfold edgeRow
    rw [edgeRow_nan, Except.ok_bind]
    exact ih _

theorem buildEdges_nan (nodes : List Node) (data : List ℚ) :
    buildEdges nodes data none = .ok [] := by
  unfold buildEdges
  obtain ⟨i, hi⟩ := edgeRows_nan nodes data (List.range (nodes.length - 1)) (0, [])
  rw [hi]

theorem buildEdges_total (nodes : List Node) (data : List ℚ) (threshold : Option ℚ) :
    ∃ edges, buildEdges nodes data threshold = .ok edges := by
  cases threshold with
  | none => exact ⟨[], buildEdges_nan nodes data⟩
  | some T => exact ⟨_, buildEdges_eq nodes data T⟩

theorem length_wrapGenes (genes : List Gene) : (wrapGenes genes).length = genes.length := by
  simp [wrapGenes]

theorem ids_wrapGenes (genes : List Gene) :
    (wrapGenes genes).map (fun node => node.data.id) = genes.map (fun gene => gene.id) := by
  simp [wrapGenes]

/-- The run of `network2js` once decoding and the custom group step succeed. -/
theorem network2js_of_stages (env : Env) (net : Network) (data : List ℚ) (edges : List Edge)
    (groups : List Group) (nodes : List Node)
    (hdec : decodeScores net.buffer net.genes.length = .ok data)
    (hedges : buildEdges (wrapGenes net.genes) data
      (defaultThreshold env.quicksort data net.genes.length) = .ok edges)
    (hcust : addCustomGroups (indexBy (wrapGenes net.genes)) net.groups
      ([allGenesGroup (wrapGenes net.genes)], wrapGenes net.genes) = .ok (groups, nodes)) :
    (network2js env net).calls = (clusterStep env data nodes net.genes.length).1 ∧
    (network2js env net).result =
      match (clusterStep env data nodes net.genes.length).2 with
      | .error e => .error e
      | .ok clusterGroups =>
        .ok { nodes := nodes, edges := edges
              groups := groups ++ clusterGroups ++ [mySelectionGroup]
              edgeValueScales := edgeValueScales, edgeColorScales := edgeColorScales
              buffer := net.buffer
              threshold := defaultThreshold env.quicksort data net.genes.length } := by
  unfold network2js
  simp only [length_wrapGenes, hdec, hedges, hcust]
  rcases hc : clusterStep env data nodes net.genes.length with ⟨calls, _ | cg⟩ <;> simp

/-- The stages behind a successful run of `network2js`. -/
theorem network2js_ok (env : Env) (net : Network) (js : NetworkJs)
    (hrun : (network2js env net).result = .ok js) :
    ∃ data groups clusterGroups,
      decodeScores net.buffer net.genes.length = .ok data ∧
      buildEdges (wrapGenes net.genes) data js.threshold = .ok js.edges ∧
      js.threshold = defaultThreshold env.quicksort data net.genes.length ∧
      addCustomGroups (indexBy (wrapGenes net.genes)) net.groups
        ([allGenesGroup (wrapGenes net.genes)], wrapGenes net.genes) = .ok (groups, js.nodes) ∧
      (clusterStep env data js.nodes net.genes.length).2 = .ok clusterGroups ∧
      js.groups = groups ++ clusterGroups ++ [mySelectionGroup] ∧
      js.buffer = net.buffer := by
  cases hdec : decodeScores net.buffer net.genes.length with
  | error e =>
    unfold network2js at hrun
    simp [length_wrapGenes, hdec] at hrun
  | ok data =>
    obtain ⟨edges, hedges⟩ := buildEdges_total (wrapGenes net.genes) data
      (defaultThreshold env.quicksort data net.genes.length)
    cases hcust : addCustomGroups (indexBy (wrapGenes net.genes)) net.groups
        ([allGenesGroup (wrapGenes net.genes)], wrapGenes net.genes) with
    | error e =>
      unfold network2js at hrun
      simp [length_wrapGenes, hdec, hedges, hcust] at hrun
    | ok st =>
      obtain ⟨groups, nodes⟩ := st
      have h := (network2js_of_stages env net data edges groups nodes hdec hedges hcust).2
      rw [hrun] at h
      cases hcl : (clusterStep env data nodes net.genes.length).2 with
      | error e => rw [hcl] at h; simp at h
      | ok cg =>
        rw [hcl] at h
        simp only [Except.ok.injEq] at h
        subst h
        exact ⟨data, groups, cg, rfl, hedges, rfl, rfl, hcl, rfl, rfl⟩

/-- No call of `getClusters` is made when a stage before the clustering block fails. -/
theorem network2js_calls_of_decode_error (env : Env) (net : Network) (e : JsError)
    (hdec : decodeScores net.buffer net.genes.length = .error e) :
    (network2js env net).calls = [] ∧ (network2js env net).result = .error e := by
  unfold network2js
  simp [length_wrapGenes, hdec]

/-! ## Lemmas on the custom group step -/

theorem indexBy_append (l : List Node) (a : Node) (key : String) :
    indexBy (l ++ [a]) key = if key = a.data.id then some l.length else indexBy l key := by
  unfold indexBy
  rw [List.enum_append, List.foldl_append]
  rfl

theorem indexBy_eq_none (l : List Node) (key : String) :
    indexBy l key = none ↔ key ∉ l.map (fun node => node.data.id) := by
  induction l using List.reverseRecOn with
  | nil => simp [indexBy]
  | append_singleton l a ih =>
    rw [indexBy_append]
    by_cases h : key = a.data.id
    · simp [h]
    · simp [h, ih]

theorem indexBy_some (l : List Node) (key : String) (k : Nat) (h : indexBy l key = some k) :
    ∃ node, l[k]? = some node ∧ node.data.id = key := by
  induction l using List.reverseRecOn with
  | nil => simp [indexBy] at h
  | append_singleton l a ih =>
    rw [indexBy_append] at h
    by_cases hk : key = a.data.id
    · simp only [hk, if_true, Option.some.injEq] at h
      subst h
      exact ⟨a, by simp, hk.symm⟩
    · simp only [hk, if_false] at h
      obtain ⟨node, hn, hid⟩ := ih h
      refine ⟨node, ?_, hid⟩
      have hlt : k < l.length := by
        by_contra hc
        rw [List.getElem?_eq_none (by omega)] at hn
        cases hn
      rw [List.getElem?_append_left hlt]
      exact hn

theorem indexBy_of_nodup (l : List Node) (hnd : (l.map (fun node => node.data.id)).Nodup)
    (k : Nat) (node : Node) (h : l[k]? = some node) : indexBy l node.data.id = some k := by
  induction l using List.reverseRecOn with
  | nil => simp at h
  | append_singleton l a ih =>
    rw [indexBy_append]
    rw [List.map_append, List.nodup_append] at hnd
    obtain ⟨hl, _, hdis⟩ := hnd
    by_cases hk : k < l.length
    · rw [List.getElem?_append_left hk] at h
      have hmem : node.data.id ∈ l.map (fun node => node.data.id) :=
        List.mem_map.mpr ⟨node, List.getElem?_mem h, rfl⟩
      have hne : node.data.id ≠ a.data.id := by
        intro he
        exact hdis hmem (by simp [he])
      simp only [hne, if_false]
      exact ih hl h
    · have hlen : k = l.length := by
        by_contra hc
        rw [List.getElem?_eq_none (by simp; omega)] at h
        cases h
      subst hlen
      simp at h
      subst h
      simp

theorem data_pushCustomGroup (groupId : Nat) (node : Node) :
    (pushCustomGroup groupId node).data = node.data := by
  unfold pushCustomGroup
  cases node.customGroups <;> rfl

theorem customGroups_pushCustomGroup (groupId : Nat) (node : Node) :
    (pushCustomGroup groupId node).customGroups
      = some ((match node.customGroups with | none => [] | some l => l) ++ [groupId]) := by
  unfold pushCustomGroup
  cases node.customGroups <;> rfl

theorem data_annotate (ids : List Nat) : ∀ node : Node, (annotate ids node).data = node.data := by
  induction ids with
  | nil => intro node; rfl
  | cons a ids ih =>
    intro node
    show (annotate ids (pushCustomGroup a node)).data = node.data
    rw [ih, data_pushCustomGroup]

theorem customGroups_annotate (ids : List Nat) :
    ∀ node : Node, (annotate ids node).customGroups
      = if ids = [] then node.customGroups
        else some ((match node.customGroups with | none => [] | some l => l) ++ ids) := by
  induction ids with
  | nil => intro node; rfl
  | cons a ids ih =>
    intro node
    show (annotate ids (pushCustomGroup a node)).customGroups = _
    rw [ih, customGroups_pushCustomGroup]
    by_cases h : ids = []
    · simp [h]
    · simp [h]

theorem annotate_append (a b : List Nat) (node : Node) :
    annotate (a ++ b) node = annotate b (annotate a node) := by
  unfold annotate
  rw [List.foldl_append]

theorem annotateGenes_spec (hashNodes : String → Option Nat) (groupId : Nat)
    (genes : List String) :
    ∀ nodes nodes', genes.foldlM (annotateGene hashNodes groupId) nodes = .ok nodes' →
      ∀ k, nodes'[k]? = nodes[k]?.map
        (annotate ((genes.filter (fun gene => hashNodes gene = some k)).map (fun _ => groupId))) := by
  induction genes with
  | nil =>
    intro nodes nodes' h k
    simp only [List.foldlM_nil, pure, Except.pure, Except.ok.injEq] at h
    subst h
    cases nodes[k]? <;> rfl
  | cons id genes ih =>
    intro nodes nodes' h k
    rw [List.foldlM_cons] at h
    unfold annotateGene at h
    cases hh : hashNodes id with
    | none =>
      by_cases hin : id ∈ objectPrototypeKeys
      · simp only [hh, hin, if_true, Except.ok_bind] at h
        rw [ih _ _ h k]
        simp [List.filter_cons, hh]
      · simp [hh, hin, bind, Except.bind] at h
    | some j =>
      simp only [hh, Except.ok_bind] at h
      rw [ih _ _ h k, List.getElem?_modify]
      by_cases hjk : j = k
      · subst hjk
        simp only [List.filter_cons, hh, decide_True, if_true, List.map_cons]
        cases nodes[j]? <;> rfl
      · have hne : ¬ (some j = some k) := by simpa using hjk
        simp only [List.filter_cons, hh, hne, decide_False, hjk, if_false]
        cases nodes[k]? <;> rfl

theorem annotateGenes_ok (hashNodes : String → Option Nat) (groupId : Nat)
    (genes : List String) (hk : ∀ id ∈ genes, hashNodes id ≠ none) :
    ∀ nodes, ∃ nodes', genes.foldlM (annotateGene hashNodes groupId) nodes = .ok nodes' := by
  induction genes with
  | nil => intro nodes; exact ⟨nodes, rfl⟩
  | cons id genes ih =>
    intro nodes
    rw [List.foldlM_cons]
    unfold annotateGene
    cases hh : hashNodes id with
    | none => exact absurd hh (hk id (List.mem_cons_self _ _))
    | some j =>
      simp only [Except.ok_bind]
      exact ih (fun x hx => hk x (List.mem_cons_of_mem _ hx)) _

theorem addCustomGroups_spec (hashNodes : String → Option Nat) (customs : List CustomGroup) :
    ∀ (st st' : List Group × List Node), addCustomGroups hashNodes customs st = .ok st' →
      st'.1 = st.1 ++ customs.map customGroup ∧
      ∀ k, st'.2[k]? = st.2[k]?.map (annotate (pushedIds hashNodes customs k)) := by
  induction customs with
  | nil =>
    intro st st' h
    simp only [addCustomGroups, List.foldlM_nil, pure, Except.pure, Except.ok.injEq] at h
    subst h
    refine ⟨by simp, fun k => ?_⟩
    cases st.2[k]? <;> rfl
  | cons g customs ih =>
    intro st st' h
    simp only [addCustomGroups, List.foldlM_cons] at h
    unfold addCustomGroup at h
    cases hg : g.genes.foldlM (annotateGene hashNodes g.id) st.2 with
    | error e => simp [hg, bind, Except.bind] at h
    | ok nodes =>
      simp only [hg, Except.ok_bind] at h
      obtain ⟨h1, h2⟩ := ih _ _ h
      refine ⟨by simp [h1], fun k => ?_⟩
      rw [h2 k]
      simp only []
      rw [annotateGenes_spec hashNodes g.id g.genes _ _ hg k]
      simp only [pushedIds, List.flatMap_cons]
      cases st.2[k]? with
      | none => rfl
      | some node => simp [annotate_append]

theorem addCustomGroups_ok (hashNodes : String → Option Nat) (customs : List CustomGroup)
    (hk : ∀ group ∈ customs, ∀ id ∈ group.genes, hashNodes id ≠ none) :
    ∀ st, ∃ st', addCustomGroups hashNodes customs st = .ok st' := by
  induction customs with
  | nil => intro st; exact ⟨st, rfl⟩
  | cons g customs ih =>
    intro st
    simp only [addCustomGroups, List.foldlM_cons]
    unfold addCustomGroup
    obtain ⟨nodes, hn⟩ := annotateGenes_ok hashNodes g.id g.genes
      (hk g (List.mem_cons_self _ _)) st.2
    simp only [hn, Except.ok_bind]
    exact ih (fun x hx => hk x (List.mem_cons_of_mem _ hx)) _

/-- The custom group step succeeds on a network whose groups list known genes only. -/
theorem addCustomGroups_of_known (net : Network) (hk : GroupsKnown net)
    (st : List Group × List Node) :
    ∃ st', addCustomGroups (indexBy (wrapGenes net.genes)) net.groups st = .ok st' := by
  apply addCustomGroups_ok
  intro group hg id hid
  rw [Ne, indexBy_eq_none, ids_wrapGenes]
  exact fun hn => hn (hk group hg id hid)

/-! ## Lemmas on the cluster groups -/

theorem addExemplar_ok (nodes : List Node) (st : List ClusterGroup × (Nat → Option Nat))
    (e : Nat) (node : Node) (hn : nodes[e]? = some node) :
    addExemplar nodes st e
      = .ok (st.1 ++ [{ nodes := [], exemplar := node.data.id }],
          fun key => if key = e then some st.1.length else st.2 key) := by
  unfold addExemplar nodeId
  rw [hn]

theorem addExemplar_error (nodes : List Node) (st : List ClusterGroup × (Nat → Option Nat))
    (e : Nat) (hn : nodes[e]? = none) :
    addExemplar nodes st e = .error .typeError := by
  unfold addExemplar nodeId
  rw [hn]

theorem addExemplars_spec (nodes : List Node) (exemplars : List Nat) :
    ∀ (st st' : List ClusterGroup × (Nat → Option Nat)),
      exemplars.foldlM (addExemplar nodes) st = .ok st' →
      st'.1.map (fun c => some c.exemplar)
        = st.1.map (fun c => some c.exemplar)
          ++ exemplars.map (fun e => nodes[e]?.map (fun node => node.data.id)) := by
  induction exemplars with
  | nil =>
    intro st st' h
    simp only [List.foldlM_nil, pure, Except.pure, Except.ok.injEq] at h
    subst h
    simp
  | cons e exemplars ih =>
    intro st st' h
    rw [List.foldlM_cons] at h
    cases hn : nodes[e]? with
    | none =>
      rw [addExemplar_error nodes st e hn] at h
      simp [bind, Except.bind] at h
    | some node =>
      rw [addExemplar_ok nodes st e node hn, Except.ok_bind] at h
      rw [ih _ _ h]
      simp [hn]

theorem map_exemplar_modify (f : ClusterGroup → ClusterGroup)
    (hf : ∀ c, (f c).exemplar = c.exemplar) (l : List ClusterGroup) :
    ∀ g, (l.modify f g).map (fun c => some c.exemplar) = l.map (fun c => some c.exemplar) := by
  induction l with
  | nil => intro g; cases g <;> rfl
  | cons a l ih =>
    intro g
    cases g with
    | zero => simp [List.modify, hf]
    | succ g => simp [ih g]

theorem addToClusters_spec (nodes : List Node) (clusterHash : Nat → Option Nat)
    (l : List (Nat × Nat)) :
    ∀ (groups groups' : List ClusterGroup),
      l.foldlM (addToCluster nodes clusterHash) groups = .ok groups' →
      groups'.map (fun c => some c.exemplar) = groups.map (fun c => some c.exemplar) := by
  induction l with
  | nil =>
    intro groups groups' h
    simp only [List.foldlM_nil, pure, Except.pure, Except.ok.injEq] at h
    subst h
    rfl
  | cons p l ih =>
    intro groups groups' h
    rw [List.foldlM_cons] at h
    unfold addToCluster at h
    cases hh : clusterHash p.2 with
    | none => simp [hh, bind, Except.bind] at h
    | some g =>
      cases hn : nodeId nodes p.1 with
      | error e => simp [hh, hn, bind, Except.bind] at h
      | ok id =>
        simp only [hh, hn, Except.ok_bind] at h
        rw [ih _ _ h]
        exact map_exemplar_modify
          (fun group => { group with nodes := group.nodes ++ [id] }) (fun _ => rfl) _ _

/-- The groups of `fillClusterGroups` stand in the order of `clusters.exemplars`. -/
theorem fillClusterGroups_exemplars (nodes : List Node) (clusters : ClusterResult)
    (filled : List ClusterGroup) (h : fillClusterGroups nodes clusters = .ok filled) :
    filled.map (fun c => some c.exemplar)
      = clusters.exemplars.map (fun e => nodes[e]?.map (fun node => node.data.id)) := by
  unfold fillClusterGroups at h
  cases h1 : clusters.exemplars.foldlM (addExemplar nodes) ([], fun _ => none) with
  | error e => simp [h1] at h
  | ok st =>
    obtain ⟨groups, hash⟩ := st
    simp only [h1] at h
    rw [addToClusters_spec nodes hash _ _ _ h, addExemplars_spec nodes _ _ _ h1]
    simp

/-- The call `_.sortBy` keeps, among the elements of one key, the order they had. -/
theorem sortBy_stable {α : Type} (key : α → Int) (xs : List α) (s : Int) :
    (sortBy key xs).filter (fun a => decide (key a = s)) = xs.filter (fun a => decide (key a = s)) := by
  have hsub : List.Sublist (xs.filter (fun a => decide (key a = s))) (sortBy key xs) := by
    apply List.sublist_insertionSort
    · rw [List.pairwise_iff_forall_sublist]
      intro a b hab
      have ha : a ∈ xs.filter (fun a => decide (key a = s)) := hab.subset (by simp)
      have hb : b ∈ xs.filter (fun a => decide (key a = s)) := hab.subset (by simp)
      simp only [List.mem_filter, decide_eq_true_eq] at ha hb
      rw [ha.2, hb.2]
    · exact List.filter_sublist _
  have hsub2 := hsub.filter (fun a => decide (key a = s))
  rw [List.filter_filter] at hsub2
  simp only [Bool.and_self] at hsub2
  have hlen : ((sortBy key xs).filter (fun a => decide (key a = s))).length
      = (xs.filter (fun a => decide (key a = s))).length := by
    rw [← List.countP_eq_length_filter, ← List.countP_eq_length_filter]
    exact (List.perm_insertionSort _ xs).countP_eq _
  exact (hsub2.eq_of_length hlen.symm).symm

/-- The call `_.sortBy` returns its elements in ascending order of the key. -/
theorem sortBy_sorted {α : Type} (key : α → Int) (xs : List α) :
    ((sortBy key xs).map key).Sorted (· ≤ ·) := by
  have h : (sortBy key xs).Sorted (fun a b => key a ≤ key b) := by
    haveI : IsTotal α (fun a b => key a ≤ key b) := ⟨fun a b => le_total (key a) (key b)⟩
    haveI : IsTrans α (fun a b => key a ≤ key b) := ⟨fun a b c => le_trans⟩
    exact List.sorted_insertionSort _ xs
  exact List.pairwise_map.mpr h

theorem sortBy_perm {α : Type} (key : α → Int) (xs : List α) : (sortBy key xs).Perm xs :=
  List.perm_insertionSort _ xs

theorem getElem?_named (l : List ClusterGroup) (k : Nat) :
    (l.enum.map nameCluster)[k]? = l[k]?.map (fun c => nameCluster (k, c)) := by
  rw [List.getElem?_map, List.getElem?_enum]
  cases l[k]? <;> rfl

theorem map_named {β : Type} (f : Group → β) (g : ClusterGroup → β)
    (h : ∀ k c, f (nameCluster (k, c)) = g c) (l : List ClusterGroup) :
    (l.enum.map nameCluster).map f = l.map g := by
  apply List.ext_getElem?
  intro k
  rw [List.getElem?_map, getElem?_named, List.getElem?_map]
  cases l[k]? with
  | none => rfl
  | some c => simp [h]

theorem filter_named (p : Group → Bool) (q : ClusterGroup → Bool)
    (h : ∀ k c, p (nameCluster (k, c)) = q c) (l : List ClusterGroup) :
    ((l.enum.map nameCluster).filter p).map (fun g => (g.exemplar, g.nodes))
      = (l.filter q).map (fun c => (some c.exemplar, c.nodes)) := by
  unfold List.enum
  generalize 0 = n
  induction l generalizing n with
  | nil => rfl
  | cons a l ih =>
    simp only [List.enumFrom_cons, List.map_cons, List.filter_cons, h]
    by_cases hq : q a = true
    · simp only [hq, if_true, List.map_cons, ih]
      rfl
    · simp only [hq, if_false, ih]
      simp [hq, ih]

/-! ## Lemmas on the clustering block -/

theorem clusterStep_small (env : Env) (data : List ℚ) (nodes : List Node) (numNodes : Nat)
    (h : numNodes ≤ 4) : clusterStep env data nodes numNodes = ([], .ok []) := by
  unfold clusterStep
  rw [if_neg (by omega)]

theorem clusterStep_large (env : Env) (data : List ℚ) (nodes : List Node) (numNodes : Nat)
    (h : 4 < numNodes) :
    clusterStep env data nodes numNodes
      = ((getClustersRetry env data).1,
          match (getClustersRetry env data).2 with
          | .error e => .error e
          | .ok clusters => createClusterGroups nodes clusters) := by
  unfold clusterStep
  rw [if_pos h]
  rcases getClustersRetry env data with ⟨calls, _ | c⟩ <;> rfl

theorem getClustersRetry_calls (env : Env) (data : List ℚ) :
    1 ≤ (getClustersRetry env data).1.length ∧ (getClustersRetry env data).1.length ≤ 2 := by
  unfold getClustersRetry
  cases env.getClusters data firstOptions with
  | error e => simp
  | ok c =>
    by_cases h : c.exemplars.length = 1
    · simp [h]
    · simp [h]

theorem getClustersRetry_retry (env : Env) (data : List ℚ) (first : ClusterResult)
    (hfirst : env.getClusters data firstOptions = .ok first)
    (h : first.exemplars.length = 1) :
    getClustersRetry env data
      = ([(data, firstOptions), (data, secondOptions)], env.getClusters data secondOptions) := by
  unfold getClustersRetry
  rw [hfirst]
  simp [h]

theorem getClustersRetry_keep (env : Env) (data : List ℚ) (first : ClusterResult)
    (hfirst : env.getClusters data firstOptions = .ok first)
    (h : first.exemplars.length ≠ 1) :
    getClustersRetry env data = ([(data, firstOptions)], .ok first) := by
  unfold getClustersRetry
  rw [hfirst]
  simp [h]

theorem createClusterGroups_eq (nodes : List Node) (clusters : ClusterResult)
    (out : List Group) (h : createClusterGroups nodes clusters = .ok out) :
    ∃ filled, fillClusterGroups nodes clusters = .ok filled ∧
      out = (sortBy (fun group => -(group.nodes.length : Int)) filled).enum.map nameCluster := by
  unfold createClusterGroups at h
  cases hf : fillClusterGroups nodes clusters with
  | error e => simp [hf] at h
  | ok filled =>
    simp only [hf, Except.ok.injEq] at h
    exact ⟨filled, rfl, h.symm⟩

theorem createClusterGroups_type (nodes : List Node) (clusters : ClusterResult)
    (out : List Group) (h : createClusterGroups nodes clusters = .ok out) :
    ∀ g ∈ out, g.type = .cluster := by
  obtain ⟨filled, -, rfl⟩ := createClusterGroups_eq nodes clusters out h
  intro g hg
  obtain ⟨p, -, rfl⟩ := List.mem_map.mp hg
  rfl

/-- The cluster groups of a successful run. -/
theorem clusterStep_ok (env : Env) (data : List ℚ) (nodes : List Node) (numNodes : Nat)
    (cg : List Group) (h : (clusterStep env data nodes numNodes).2 = .ok cg) :
    (numNodes ≤ 4 → cg = []) ∧
    (4 < numNodes → ∃ clusters, (getClustersRetry env data).2 = .ok clusters ∧
      createClusterGroups nodes clusters = .ok cg) := by
  constructor
  · intro hN
    rw [clusterStep_small env data nodes numNodes hN] at h
    simp only [Except.ok.injEq] at h
    exact h.symm
  · intro hN
    rw [clusterStep_large env data nodes numNodes hN] at h
    cases hc : (getClustersRetry env data).2 with
    | error e => simp [hc] at h
    | ok clusters =>
      simp only [hc] at h
      exact ⟨clusters, rfl, h⟩

/-- The nodes of a successful run: the wrapped genes, each with the pushed group ids. -/
theorem network2js_nodes (env : Env) (net : Network) (js : NetworkJs)
    (hrun : (network2js env net).result = .ok js) (k : Nat) :
    js.nodes[k]? = (wrapGenes net.genes)[k]?.map
      (annotate (pushedIds (indexBy (wrapGenes net.genes)) net.groups k)) := by
  obtain ⟨data, groups, cg, -, -, -, hcust, -, -, -⟩ := network2js_ok env net js hrun
  exact (addCustomGroups_spec _ _ _ _ hcust).2 k

theorem network2js_nodes_data (env : Env) (net : Network) (js : NetworkJs)
    (hrun : (network2js env net).result = .ok js) :
    js.nodes.map (fun node => node.data) = net.genes := by
  apply List.ext_getElem?
  intro k
  rw [List.getElem?_map, network2js_nodes env net js hrun k]
  unfold wrapGenes
  rw [List.getElem?_map]
  cases net.genes[k]? with
  | none => rfl
  | some gene => simp [data_annotate]

theorem network2js_nodes_ids (env : Env) (net : Network) (js : NetworkJs)
    (hrun : (network2js env net).result = .ok js) :
    js.nodes.map (fun node => node.data.id) = net.genes.map (fun gene => gene.id) := by
  rw [← network2js_nodes_data env net js hrun, List.map_map]
  rfl

theorem network2js_groups_eq (env : Env) (net : Network) (js : NetworkJs)
    (hrun : (network2js env net).result = .ok js) :
    ∃ data cg, decodeScores net.buffer net.genes.length = .ok data ∧
      (clusterStep env data js.nodes net.genes.length).2 = .ok cg ∧
      js.groups = allGenesGroup (wrapGenes net.genes)
        :: (net.groups.map customGroup ++ cg ++ [mySelectionGroup]) := by
  obtain ⟨data, groups, cg, hdec, -, -, hcust, hcl, hg, -⟩ := network2js_ok env net js hrun
  refine ⟨data, cg, hdec, hcl, ?_⟩
  have hgroups : groups = [allGenesGroup (wrapGenes net.genes)] ++ net.groups.map customGroup :=
    (addCustomGroups_spec _ _ _ _ hcust).1
  rw [hg, hgroups]
  simp

/-! ## Lemmas for the threshold -/

theorem decodeFrom_length (buffer : Buffer) (n : Nat) :
    ∀ i data, decodeFrom buffer i n = .ok data → data.length = n := by
  induction n with
  | zero =>
    intro i data h
    simp only [decodeFrom, Except.ok.injEq] at h
    subst h
    rfl
  | succ n ih =>
    intro i data h
    simp only [decodeFrom] at h
    cases hu : getUint16 buffer (i * 2) with
    | error e => simp [hu] at h
    | ok u =>
      cases hr : decodeFrom buffer (i + 1) n with
      | error e => simp [hu, hr] at h
      | ok rest =>
        simp only [hu, hr, Except.ok.injEq] at h
        subst h
        simp [ih _ _ hr]

theorem decodeScores_length (buffer : Buffer) (numNodes : Nat) (data : List ℚ)
    (h : decodeScores buffer numNodes = .ok data) : data.length = numPairs numNodes :=
  decodeFrom_length buffer _ 0 data h

theorem numPairs_pos (numNodes : Nat) (h : 2 ≤ numNodes) : 0 < numPairs numNodes := by
  obtain ⟨m, rfl⟩ : ∃ m, numNodes = m + 1 + 1 := ⟨numNodes - 2, by omega⟩
  rw [numPairs_succ]
  omega

theorem ceiling_eq :
    (edgeValueScales[0]?.bind List.getLast?).map (fun x => x - 1) = some (15 - 1) := rfl

theorem exists_ok_of_isOk (r : Except JsError NetworkJs) (h : r.isOk = true) :
    ∃ js, r = .ok js := by
  cases r with
  | error e => cases h
  | ok js => exact ⟨js, rfl⟩

theorem quicksortModel_sorted (xs : List ℚ) : (quicksortModel xs).Sorted (· ≤ ·) :=
  List.sorted_insertionSort _ xs

theorem quicksortModel_perm (xs : List ℚ) : (quicksortModel xs).Perm xs :=
  List.perm_insertionSort _ xs

/-! ## Claims -/

/-- C1: for a score array `data` of length `N(N-1)/2` and a threshold `T`, the
edge loop of `network2js` returns exactly the edges of the pairs `(i1, i2)`,
`i1 < i2 < N`, taken in row-major order, whose score at the flat position
`i1*N - i1*(i1+1)/2 + (i2 - i1 - 1)` has absolute value at least `T`, with
source the id of node `i1`, target the id of node `i2` and weight that score;
every such flat position lies inside `data`. -/
theorem buildEdges_rowMajor (nodes : List Node) (data : List ℚ) (T : ℚ)
    (hlen : data.length = numPairs nodes.length) :
    buildEdges nodes data (some T)
        = .ok (thresholdEdges (nodes.map (fun node => node.data.id)) data T) ∧
      ∀ p ∈ upperPairs nodes.length,
        p.1 < p.2 ∧ p.2 < nodes.length ∧ flatPos nodes.length p.1 p.2 < data.length := by
  refine ⟨buildEdges_eq nodes data T, ?_⟩
  intro p hp
  obtain ⟨h1, h2⟩ := (mem_upperPairs _ p).mp hp
  exact ⟨h1, h2, hlen ▸ flatPos_lt _ _ _ h1 h2⟩

/-- Witness of C1: six nodes, every score `0` but the one of the pair `(2, 4)`,
at the flat position `10`, which is `5.2`; with the threshold `5` the one edge
is that of the third and the fifth node. -/
theorem buildEdges_rowMajor_witness :
    buildEdges (wrapGenes [⟨"a"⟩, ⟨"b"⟩, ⟨"c"⟩, ⟨"d"⟩, ⟨"e"⟩, ⟨"f"⟩])
        [0, 0, 0, 0, 0, 0, 0, 0, 0, 0, 52 / 10, 0, 0, 0, 0] (some 5)
      = .ok [{ source := "c", target := "e", weight := 52 / 10 }] :=
  (buildEdges_rowMajor (wrapGenes [⟨"a"⟩, ⟨"b"⟩, ⟨"c"⟩, ⟨"d"⟩, ⟨"e"⟩, ⟨"f"⟩])
    [0, 0, 0, 0, 0, 0, 0, 0, 0, 0, 52 / 10, 0, 0, 0, 0] 5 (by decide)).1.trans (by decide!)

/-- C2: on a buffer of exactly `2 * N(N-1)/2` bytes the decoding step of
`network2js` returns `N(N-1)/2` scores, the `k`-th being
`(256 * b[2k] + b[2k+1] - 32768) / 1000`, a value between `-32.768` and
`32.767`; and decoding the big-endian encoding of integers `m` of
`[-32768, 32767]`, each sent as `m + 32768`, returns `m / 1000` at the same
positions. -/
theorem decodeScores_exact (numNodes : Nat) (buffer : Buffer)
    (hlen : buffer.length = 2 * numPairs numNodes)
    (ms : List Int) (hcount : ms.length = numPairs numNodes)
    (hms : ∀ m ∈ ms, -32768 ≤ m ∧ m ≤ 32767) :
    (∃ data, decodeScores buffer numNodes = .ok data ∧ data.length = numPairs numNodes ∧
      ∀ k, k < numPairs numNodes →
        ∃ hi lo, buffer[2 * k]? = some hi ∧ buffer[2 * k + 1]? = some lo ∧
          data[k]? = some ((256 * (hi.val : ℚ) + (lo.val : ℚ) - 32768) / 1000) ∧
          (-32.768 : ℚ) ≤ (256 * (hi.val : ℚ) + (lo.val : ℚ) - 32768) / 1000 ∧
          (256 * (hi.val : ℚ) + (lo.val : ℚ) - 32768) / 1000 ≤ (32.767 : ℚ)) ∧
    decodeScores (encodeScores ms) numNodes = .ok (ms.map (fun m => (m : ℚ) / 1000)) := by
  constructor
  · obtain ⟨data, hd, hl, hk⟩ := decodeFrom_ok buffer (numPairs numNodes) 0 (by omega)
    refine ⟨data, hd, hl, fun k hkn => ?_⟩
    obtain ⟨hi, lo, h1, h2, h3⟩ := hk k hkn
    simp only [Nat.zero_add] at h1 h2
    refine ⟨hi, lo, h1, h2, h3, ?_, ?_⟩
    · have hh : (0 : ℚ) ≤ (hi.val : ℚ) := Nat.cast_nonneg _
      have hl : (0 : ℚ) ≤ (lo.val : ℚ) := Nat.cast_nonneg _
      norm_num
      rw [le_div_iff₀ (by norm_num)]
      linarith
    · have hh : (hi.val : ℚ) ≤ 255 := by exact_mod_cast Nat.le_of_lt_succ hi.isLt
      have hl : (lo.val : ℚ) ≤ 255 := by exact_mod_cast Nat.le_of_lt_succ lo.isLt
      norm_num
      rw [div_le_iff₀ (by norm_num)]
      linarith
  · unfold decodeScores
    rw [← hcount]
    exact decodeFrom_encode ms hms

/-- Witness of C2: three nodes, the scores `1`, `-2` and `-32.768`. -/
theorem decodeScores_exact_witness :
    decodeScores (encodeScores [1000, -2000, -32768]) 3
      = .ok ([1000, -2000, -32768].map (fun m : Int => (m : ℚ) / 1000)) :=
  (decodeScores_exact 3 (encodeScores [1000, -2000, -32768]) (by decide) [1000, -2000, -32768]
    (by decide) (by decide)).2

/-- C3: for `N ≥ 2` nodes and decoded scores `data` of length `L`, when the
sort helper leaves the ascending rearrangement `s` of `data`, the threshold of
`network2js` is `min (15 - 1) s[max(0, L - 2N)]`, with `15` the last entry of
the first value scale, and the edges are those of `data` in its original order. -/
theorem network2js_threshold (env : Env) (net : Network) (data : List ℚ) (js : NetworkJs)
    (hN : 2 ≤ net.genes.length)
    (hdec : decodeScores net.buffer net.genes.length = .ok data)
    (hsorted : (env.quicksort data).Sorted (· ≤ ·))
    (hperm : (env.quicksort data).Perm data)
    (hrun : (network2js env net).result = .ok js) :
    edgeValueScales[0]?.bind List.getLast? = some 15 ∧
    ∃ x, (quicksortModel data)[(max (0 : Int)
          ((data.length : Int) - (net.genes.length : Int) * 2)).toNat]? = some x ∧
      js.threshold = some (min (15 - 1) x) ∧
      js.edges = thresholdEdges (net.genes.map (fun gene => gene.id)) data (min (15 - 1) x) := by
  refine ⟨rfl, ?_⟩
  have hq : env.quicksort data = quicksortModel data :=
    List.eq_of_perm_of_sorted (hperm.trans (quicksortModel_perm data).symm) hsorted
      (quicksortModel_sorted data)
  obtain ⟨data', groups, cg, hdec', hedges, hthr, -, -, -, -⟩ := network2js_ok env net js hrun
  rw [hdec] at hdec'
  simp only [Except.ok.injEq] at hdec'
  subst hdec'
  have hL := decodeScores_length _ _ _ hdec
  have hpos := numPairs_pos _ hN
  have hidx : (max (0 : Int) ((data.length : Int) - (net.genes.length : Int) * 2)).toNat
      < (quicksortModel data).length := by
    rw [← hq, hperm.length_eq]
    omega
  refine ⟨(quicksortModel data).get ⟨_, hidx⟩, List.getElem?_eq_getElem hidx, ?_⟩
  have hT : js.threshold = some (min (15 - 1) ((quicksortModel data).get ⟨_, hidx⟩)) := by
    rw [hthr]
    unfold defaultThreshold
    simp only [ceiling_eq, hq, (hq ▸ hperm).length_eq, List.getElem?_eq_getElem hidx]
    rfl
  refine ⟨hT, ?_⟩
  rw [hT, buildEdges_eq, ids_wrapGenes] at hedges
  simp only [Except.ok.injEq] at hedges
  exact hedges.symm

/-- Witness of C3: six nodes, fifteen scores; the threshold is the score of
rank `15 - 12 = 3` in ascending order, which is `0`. -/
theorem network2js_threshold_witness :
    ∃ js, (network2js exampleEnv sixNetwork).result = .ok js ∧
      js.threshold = some 0 ∧
      ∃ x, (quicksortModel sixScores)[3]? = some x ∧ js.threshold = some (min (15 - 1) x) := by
  obtain ⟨js, hjs⟩ := exists_ok_of_isOk (network2js exampleEnv sixNetwork).result (by decide!)
  obtain ⟨x, h1, h2, _⟩ := (network2js_threshold exampleEnv sixNetwork sixScores js
    (by decide) (by decide!) (quicksortModel_sorted sixScores) (quicksortModel_perm sixScores)
    hjs).2
  have hval : (network2js exampleEnv sixNetwork).result.map (fun js => js.threshold)
      = .ok (some 0) := by decide!
  rw [hjs] at hval
  simp only [Except.map, Except.ok.injEq] at hval
  exact ⟨js, hjs, hval, x, h1, h2⟩

/-- C4: the group list of a successful run of `network2js` is the group
`'All genes'` of type `auto` holding every node id in node order, then one
group of type `custom` per supplied group, in the order supplied, with its
name, its gene list and its id as index, then the cluster groups (none when
`N ≤ 4`, else those built from the final clustering result), then the group
`'My selection'` of type `auto` with no node; so the first group is the
former and the last group the latter, whatever the clustering gave. -/
theorem network2js_groups (env : Env) (net : Network) (js : NetworkJs)
    (hrun : (network2js env net).result = .ok js) :
    ∃ clusterGroups : List Group,
      js.groups =
        { name := "All genes", index_ := none, nodes := net.genes.map (fun gene => gene.id),
          type := .auto, exemplar := none }
        :: (net.groups.map (fun group =>
              { name := group.name, index_ := some group.id, nodes := group.genes,
                type := .custom, exemplar := none })
            ++ clusterGroups
            ++ [{ name := "My selection", index_ := none, nodes := [], type := .auto,
                  exemplar := none }]) ∧
      (∀ g ∈ clusterGroups, g.type = .cluster) ∧
      (net.genes.length ≤ 4 → clusterGroups = []) ∧
      (4 < net.genes.length → ∃ data clusters,
        decodeScores net.buffer net.genes.length = .ok data ∧
        (getClustersRetry env data).2 = .ok clusters ∧
        createClusterGroups js.nodes clusters = .ok clusterGroups) ∧
      js.groups.head? = some
        { name := "All genes", index_ := none, nodes := net.genes.map (fun gene => gene.id),
          type := .auto, exemplar := none } ∧
      js.groups.getLast? = some
        { name := "My selection", index_ := none, nodes := [], type := .auto,
          exemplar := none } := by
  obtain ⟨data, cg, hdec, hcl, hg⟩ := network2js_groups_eq env net js hrun
  obtain ⟨hsmall, hlarge⟩ := clusterStep_ok env data js.nodes net.genes.length cg hcl
  have hall : allGenesGroup (wrapGenes net.genes)
      = { name := "All genes", index_ := none, nodes := net.genes.map (fun gene => gene.id),
          type := .auto, exemplar := none } := by
    unfold allGenesGroup
    rw [ids_wrapGenes]
  rw [hall] at hg
  refine ⟨cg, hg, ?_, hsmall, ?_, ?_, ?_⟩
  · intro g hgm
    by_cases hN : net.genes.length ≤ 4
    · rw [hsmall hN] at hgm
      cases hgm
    · obtain ⟨clusters, -, hc⟩ := hlarge (by omega)
      exact createClusterGroups_type _ _ _ hc g hgm
  · intro hN
    obtain ⟨clusters, h1, h2⟩ := hlarge hN
    exact ⟨data, clusters, hdec, h1, h2⟩
  · rw [hg]
    rfl
  · rw [hg, ← List.cons_append, List.getLast?_append]
    rfl

/-- Witness of C4: the run on the five-gene example network succeeds and
returns six groups, the two cluster groups standing between the custom groups
and `'My selection'`. -/
theorem network2js_groups_witness :
    ∃ js, (network2js exampleEnv exampleNetwork).result = .ok js ∧
      ∃ clusterGroups : List Group,
        js.groups =
          { name := "All genes", index_ := none, nodes := ["a", "b", "c", "d", "e"],
            type := .auto, exemplar := none }
          :: ([{ name := "mine", index_ := some 7, nodes := ["b", "a"], type := .custom,
                 exemplar := none },
               { name := "other", index_ := some 9, nodes := ["b"], type := .custom,
                 exemplar := none }]
              ++ clusterGroups
              ++ [{ name := "My selection", index_ := none, nodes := [], type := .auto,
                    exemplar := none }]) ∧
        ∀ g ∈ clusterGroups, g.type = .cluster := by
  obtain ⟨js, hjs⟩ := exists_ok_of_isOk (network2js exampleEnv exampleNetwork).result (by decide!)
  obtain ⟨cg, h1, h2, -⟩ := network2js_groups exampleEnv exampleNetwork js hjs
  exact ⟨js, hjs, cg, h1, h2⟩

/-- C5: on an input of `N > 4` nodes that reaches the clustering block (the
scores decode to `data`, the custom groups list known genes), with a
collaborator whose first call returns `first`: the first call has the options
`{symmetric: true, preference: -32.768, damping: 0.8}`; when `first` has
exactly one exemplar there is exactly one more call, with
`{symmetric: true, preference: 'min', damping: 0.8}`, and its outcome is the one
used, whatever it is; otherwise `first` is used and no other call is made.
There are never more than two calls. -/
theorem network2js_retry (env : Env) (net : Network) (data : List ℚ) (first : ClusterResult)
    (hN : 4 < net.genes.length)
    (hdec : decodeScores net.buffer net.genes.length = .ok data)
    (hknown : GroupsKnown net)
    (hfirst : env.getClusters data
      { symmetric := true, preference := .num (-32.768), damping := 0.8 } = .ok first) :
    (network2js env net).calls.length ≤ 2 ∧
    ∃ edges groups nodes,
      buildEdges (wrapGenes net.genes) data
        (defaultThreshold env.quicksort data net.genes.length) = .ok edges ∧
      addCustomGroups (indexBy (wrapGenes net.genes)) net.groups
        ([allGenesGroup (wrapGenes net.genes)], wrapGenes net.genes) = .ok (groups, nodes) ∧
      (first.exemplars.length = 1 →
        (network2js env net).calls =
          [(data, { symmetric := true, preference := .num (-32.768), damping := 0.8 }),
           (data, { symmetric := true, preference := .min, damping := 0.8 })] ∧
        (network2js env net).result = resultOfClusters env net data edges groups nodes
          (env.getClusters data { symmetric := true, preference := .min, damping := 0.8 })) ∧
      (first.exemplars.length ≠ 1 →
        (network2js env net).calls =
          [(data, { symmetric := true, preference := .num (-32.768), damping := 0.8 })] ∧
        (network2js env net).result
          = resultOfClusters env net data edges groups nodes (.ok first)) := by
  obtain ⟨edges, hedges⟩ := buildEdges_total (wrapGenes net.genes) data
    (defaultThreshold env.quicksort data net.genes.length)
  obtain ⟨⟨groups, nodes⟩, hcust⟩ := addCustomGroups_of_known net hknown
    ([allGenesGroup (wrapGenes net.genes)], wrapGenes net.genes)
  obtain ⟨hcalls, hres⟩ := network2js_of_stages env net data edges groups nodes hdec hedges hcust
  rw [clusterStep_large env data nodes _ hN] at hcalls hres
  simp only [] at hcalls hres
  refine ⟨?_, edges, groups, nodes, hedges, hcust, ?_, ?_⟩
  · rw [hcalls]
    exact (getClustersRetry_calls env data).2
  · intro h1
    rw [getClustersRetry_retry env data first hfirst h1] at hcalls hres
    refine ⟨hcalls, ?_⟩
    rw [hres]
    unfold resultOfClusters
    have e2 : ({ symmetric := true, preference := Preference.min, damping := 0.8 } : APOptions)
        = secondOptions := rfl
    rw [e2]
    simp only []
    cases env.getClusters data secondOptions with
    | error e => rfl
    | ok clusters => cases createClusterGroups nodes clusters <;> rfl
  · intro h1
    rw [getClustersRetry_keep env data first hfirst h1] at hcalls hres
    refine ⟨hcalls, ?_⟩
    rw [hres]
    unfold resultOfClusters
    simp only []

/-- Witness of C5: on the five-gene example the first call finds one exemplar,
so the collaborator is called a second time with the preference `'min'`. -/
theorem network2js_retry_witness :
    (network2js exampleEnv exampleNetwork).calls =
      [([1, -2, 3, 0, 5 / 1000, 6 / 1000, 7 / 1000, 8 / 1000, 9 / 1000, 10 / 1000],
          { symmetric := true, preference := .num (-32.768), damping := 0.8 }),
       ([1, -2, 3, 0, 5 / 1000, 6 / 1000, 7 / 1000, 8 / 1000, 9 / 1000, 10 / 1000],
          { symmetric := true, preference := .min, damping := 0.8 })] := by
  obtain ⟨-, edges, groups, nodes, -, -, h, -⟩ := network2js_retry exampleEnv exampleNetwork
    [1, -2, 3, 0, 5 / 1000, 6 / 1000, 7 / 1000, 8 / 1000, 9 / 1000, 10 / 1000]
    { exemplars := [2], clusters := [2, 2, 2, 2, 2] } (by decide) (by decide!) (by decide) rfl
  exact (h rfl).1

theorem network2js_calls_small (env : Env) (net : Network) (hN : net.genes.length ≤ 4) :
    (network2js env net).calls = [] := by
  cases hdec : decodeScores net.buffer net.genes.length with
  | error e => exact (network2js_calls_of_decode_error env net e hdec).1
  | ok data =>
    obtain ⟨edges, hedges⟩ := buildEdges_total (wrapGenes net.genes) data
      (defaultThreshold env.quicksort data net.genes.length)
    cases hcust : addCustomGroups (indexBy (wrapGenes net.genes)) net.groups
        ([allGenesGroup (wrapGenes net.genes)], wrapGenes net.genes) with
    | error e =>
      unfold network2js
      simp [length_wrapGenes, hdec, hedges, hcust]
    | ok st =>
      obtain ⟨groups, nodes⟩ := st
      rw [(network2js_of_stages env net data edges groups nodes hdec hedges hcust).1,
        clusterStep_small env data nodes _ hN]

/-- C8: with `N ≤ 4` nodes `network2js` never calls the clustering collaborator
and a graph it returns has the groups `'All genes'`, the custom groups and
`'My selection'`, none of type `cluster`; with `N > 4` nodes, a buffer that
holds the `N(N-1)/2` scores and custom groups of known genes, the collaborator
is called at least once. -/
theorem network2js_clustering_floor (env : Env) (net : Network) :
    (net.genes.length ≤ 4 →
      (network2js env net).calls = [] ∧
      ∀ js, (network2js env net).result = .ok js →
        js.groups =
          { name := "All genes", index_ := none, nodes := net.genes.map (fun gene => gene.id),
            type := .auto, exemplar := none }
          :: (net.groups.map (fun group =>
                { name := group.name, index_ := some group.id, nodes := group.genes,
                  type := .custom, exemplar := none })
              ++ [{ name := "My selection", index_ := none, nodes := [], type := .auto,
                    exemplar := none }]) ∧
        ∀ g ∈ js.groups, g.type ≠ .cluster) ∧
    (4 < net.genes.length → 2 * numPairs net.genes.length ≤ net.buffer.length →
      GroupsKnown net → 1 ≤ (network2js env net).calls.length) := by
  constructor
  · intro hN
    refine ⟨network2js_calls_small env net hN, fun js hrun => ?_⟩
    obtain ⟨data, cg, -, hcl, hg⟩ := network2js_groups_eq env net js hrun
    have hcg := (clusterStep_ok env data js.nodes net.genes.length cg hcl).1 hN
    subst hcg
    have hall : allGenesGroup (wrapGenes net.genes)
        = { name := "All genes", index_ := none, nodes := net.genes.map (fun gene => gene.id),
            type := .auto, exemplar := none } := by
      unfold allGenesGroup
      rw [ids_wrapGenes]
    rw [hall, List.append_nil] at hg
    refine ⟨hg, ?_⟩
    intro g hgm
    rw [hg] at hgm
    simp only [List.mem_cons, List.mem_append, List.mem_map, List.mem_singleton,
      List.not_mem_nil, or_false] at hgm
    rcases hgm with rfl | ⟨group, -, rfl⟩ | rfl <;> simp [customGroup, mySelectionGroup]
  · intro hN hlen hknown
    obtain ⟨data, hdec, -⟩ := decodeFrom_ok net.buffer (numPairs net.genes.length) 0 (by omega)
    obtain ⟨edges, hedges⟩ := buildEdges_total (wrapGenes net.genes) data
      (defaultThreshold env.quicksort data net.genes.length)
    obtain ⟨⟨groups, nodes⟩, hcust⟩ := addCustomGroups_of_known net hknown
      ([allGenesGroup (wrapGenes net.genes)], wrapGenes net.genes)
    rw [(network2js_of_stages env net data edges groups nodes hdec hedges hcust).1,
      clusterStep_large env data nodes _ hN]
    exact (getClustersRetry_calls env data).1

/-- Witness of C8: no call and the two default groups on the three-gene
network, a call on the five-gene network. -/
theorem network2js_clustering_floor_witness :
    ((network2js exampleEnv smallNetwork).calls = [] ∧
      ∃ js, (network2js exampleEnv smallNetwork).result = .ok js ∧
        js.groups.map (fun g => g.name) = ["All genes", "My selection"]) ∧
    1 ≤ (network2js exampleEnv exampleNetwork).calls.length := by
  obtain ⟨js, hjs⟩ := exists_ok_of_isOk (network2js exampleEnv smallNetwork).result (by decide!)
  obtain ⟨h1, h2⟩ := (network2js_clustering_floor exampleEnv smallNetwork).1 (by decide)
  refine ⟨⟨h1, js, hjs, ?_⟩, (network2js_clustering_floor exampleEnv exampleNetwork).2
    (by decide) (by decide) (by decide)⟩
  rw [(h2 js hjs).1]
  rfl

/-- Counterexample to C10: a buffer of eight bytes for three nodes, two more
than the `2 * 3` the node count calls for, is decoded without failure and
`network2js` returns a graph. -/
theorem decodeScores_long_buffer :
    longNetwork.buffer.length ≠ 2 * numPairs longNetwork.genes.length ∧
    decodeScores longNetwork.buffer longNetwork.genes.length = .ok [1, -2, 3] ∧
    (network2js exampleEnv longNetwork).result.isOk = true := by
  decide!

/-- C10, amended: a buffer of fewer than `2 * N(N-1)/2` bytes makes the decoding
step of `network2js` fail, with the `RangeError` of `getUint16`, before any
call of the clustering collaborator; a buffer of at least that many bytes is
decoded from its first `2 * N(N-1)/2` bytes, the bytes after them being
ignored, and the decoding step does not fail. -/
theorem decodeScores_buffer_length (env : Env) (net : Network) :
    (net.buffer.length < 2 * numPairs net.genes.length →
      decodeScores net.buffer net.genes.length = .error .rangeError ∧
      (network2js env net).calls = [] ∧
      (network2js env net).result = .error .rangeError) ∧
    (2 * numPairs net.genes.length ≤ net.buffer.length →
      ∃ data, decodeScores net.buffer net.genes.length = .ok data ∧
        decodeScores (net.buffer.take (2 * numPairs net.genes.length)) net.genes.length
          = .ok data) := by
  constructor
  · intro hlen
    have hdec : decodeScores net.buffer net.genes.length = .error .rangeError :=
      decodeFrom_error net.buffer (numPairs net.genes.length) 0 (by omega) (by omega)
    exact ⟨hdec, network2js_calls_of_decode_error env net _ hdec⟩
  · intro hlen
    obtain ⟨data, hdec, -⟩ := decodeFrom_ok net.buffer (numPairs net.genes.length) 0 (by omega)
    refine ⟨data, hdec, ?_⟩
    rw [← hdec]
    apply decodeFrom_congr
    intro j hj
    rw [List.getElem?_take_of_lt (by omega)]

/-- Witness of C10, amended: the five-byte buffer fails, the eight-byte buffer
decodes to the scores of its first six bytes. -/
theorem decodeScores_buffer_length_witness :
    (decodeScores shortNetwork.buffer shortNetwork.genes.length = .error .rangeError ∧
      (network2js exampleEnv shortNetwork).calls = [] ∧
      (network2js exampleEnv shortNetwork).result = .error .rangeError) ∧
    ∃ data, decodeScores longNetwork.buffer longNetwork.genes.length = .ok data ∧
      decodeScores (longNetwork.buffer.take (2 * numPairs longNetwork.genes.length))
        longNetwork.genes.length = .ok data :=
  ⟨(decodeScores_buffer_length exampleEnv shortNetwork).1 (by decide),
    (decodeScores_buffer_length exampleEnv longNetwork).2 (by decide)⟩

/-- C6: the cluster groups in the output of `network2js` (`N > 4`) come from the
groups `filled`, one per exemplar of the final clustering result and in the
order of its exemplar list: their sizes are non-increasing, the groups of any
one size stand in the order they have in `filled`, and the group at position
`k` has the name `'Cluster '` followed by `k + 1` and the index `k`. -/
theorem network2js_cluster_order (env : Env) (net : Network) (js : NetworkJs)
    (hN : 4 < net.genes.length)
    (hrun : (network2js env net).result = .ok js) :
    ∃ data clusters filled clusterGroups,
      decodeScores net.buffer net.genes.length = .ok data ∧
      (getClustersRetry env data).2 = .ok clusters ∧
      fillClusterGroups js.nodes clusters = .ok filled ∧
      filled.map (fun c => some c.exemplar)
        = clusters.exemplars.map (fun e => js.nodes[e]?.map (fun node => node.data.id)) ∧
      js.groups = allGenesGroup (wrapGenes net.genes)
        :: (net.groups.map customGroup ++ clusterGroups ++ [mySelectionGroup]) ∧
      (clusterGroups.map (fun g => g.nodes.length)).Sorted (· ≥ ·) ∧
      (∀ size : Nat,
        (clusterGroups.filter (fun g => g.nodes.length = size)).map
            (fun g => (g.exemplar, g.nodes))
          = (filled.filter (fun c => c.nodes.length = size)).map
            (fun c => (some c.exemplar, c.nodes))) ∧
      ∀ k g, clusterGroups[k]? = some g →
        g.name = "Cluster " ++ toString (k + 1) ∧ g.index_ = some k ∧ g.type = .cluster := by
  obtain ⟨data, cg, hdec, hcl, hg⟩ := network2js_groups_eq env net js hrun
  obtain ⟨clusters, hfinal, hcreate⟩ :=
    (clusterStep_ok env data js.nodes net.genes.length cg hcl).2 hN
  obtain ⟨filled, hfill, rfl⟩ := createClusterGroups_eq _ _ _ hcreate
  refine ⟨data, clusters, filled, _, hdec, hfinal, hfill,
    fillClusterGroups_exemplars _ _ _ hfill, hg, ?_, ?_, ?_⟩
  · rw [map_named (fun g => g.nodes.length) (fun c => c.nodes.length) (fun _ _ => rfl)]
    have h := sortBy_sorted (fun group : ClusterGroup => -(group.nodes.length : Int)) filled
    rw [List.Sorted, List.pairwise_map] at h ⊢
    refine h.imp ?_
    intro a b hab
    show b.nodes.length ≤ a.nodes.length
    omega
  · intro size
    rw [filter_named (fun g => decide (g.nodes.length = size))
      (fun c => decide (c.nodes.length = size)) (fun _ _ => rfl)]
    have h := sortBy_stable (fun group : ClusterGroup => -(group.nodes.length : Int)) filled
      (-(size : Int))
    have hp : (fun a : ClusterGroup => decide (-(a.nodes.length : Int) = -(size : Int)))
        = (fun c : ClusterGroup => decide (c.nodes.length = size)) := by
      funext c
      congr 1
      apply propext
      constructor <;> intro h <;> omega
    rw [hp] at h
    rw [h]
  · intro k g hk
    rw [getElem?_named] at hk
    cases hs : (sortBy (fun group : ClusterGroup => -(group.nodes.length : Int)) filled)[k]? with
    | none => simp [hs] at hk
    | some c =>
      simp only [hs, Option.map_some', Option.some.injEq] at hk
      subst hk
      exact ⟨rfl, rfl, rfl⟩

/-- Witness of C6: on the five-gene example the final clustering lists the
exemplars `a` (two members) and `d` (three members); the output has `d`'s group
first, as `'Cluster 1'`, then `a`'s, as `'Cluster 2'`. -/
theorem network2js_cluster_order_witness :
    ∃ js, (network2js exampleEnv exampleNetwork).result = .ok js ∧
      js.groups.map (fun g => (g.name, g.index_, g.exemplar, g.nodes.length))
        = [("All genes", none, none, 5), ("mine", some 7, none, 2), ("other", some 9, none, 1),
            ("Cluster 1", some 0, some "d", 3), ("Cluster 2", some 1, some "a", 2),
            ("My selection", none, none, 0)] ∧
      ∃ data clusters filled clusterGroups,
        decodeScores exampleNetwork.buffer exampleNetwork.genes.length = .ok data ∧
        (getClustersRetry exampleEnv data).2 = .ok clusters ∧
        fillClusterGroups js.nodes clusters = .ok filled ∧
        js.groups = allGenesGroup (wrapGenes exampleNetwork.genes)
          :: (exampleNetwork.groups.map customGroup ++ clusterGroups ++ [mySelectionGroup]) ∧
        (clusterGroups.map (fun g => g.nodes.length)).Sorted (· ≥ ·) := by
  obtain ⟨js, hjs⟩ := exists_ok_of_isOk (network2js exampleEnv exampleNetwork).result (by decide!)
  obtain ⟨data, clusters, filled, cg, h1, h2, h3, -, h5, h6, -⟩ :=
    network2js_cluster_order exampleEnv exampleNetwork js (by decide) hjs
  have hval : (network2js exampleEnv exampleNetwork).result.map
      (fun js => js.groups.map (fun g => (g.name, g.index_, g.exemplar, g.nodes.length)))
      = .ok [("All genes", none, none, 5), ("mine", some 7, none, 2), ("other", some 9, none, 1),
            ("Cluster 1", some 0, some "d", 3), ("Cluster 2", some 1, some "a", 2),
            ("My selection", none, none, 0)] := by decide!
  rw [hjs] at hval
  simp only [Except.map, Except.ok.injEq] at hval
  exact ⟨js, hjs, hval, data, clusters, filled, cg, h1, h2, h3, h5, h6⟩

theorem buildEdges_ids (nodes nodes' : List Node) (data : List ℚ) (threshold : Option ℚ)
    (h : nodes.map (fun node => node.data.id) = nodes'.map (fun node => node.data.id)) :
    buildEdges nodes data threshold = buildEdges nodes' data threshold := by
  cases threshold with
  | none => rw [buildEdges_nan, buildEdges_nan]
  | some T => rw [buildEdges_eq, buildEdges_eq, h]

/-- C7: when the component state holds the node list of a network (same ids in
the same order) and the selected tissue holds its buffer, the edges that
`changeThreshold` passes to `updateEdges` under the current threshold `T` are
the edges that the decoding loop and the edge loop of `network2js` give on that
network with the threshold `T`; and a run of `network2js` whose threshold is
`T` returned exactly these edges. -/
theorem changeThreshold_edges (env : Env) (net : Network) (s : State) (n : ℚ)
    (tissue : NetworkJs)
    (hsel : s.network s.selectedTissue = some tissue)
    (hbuf : tissue.buffer = net.buffer)
    (hids : s.data.nodes.map (fun node => node.data.id) = net.genes.map (fun gene => gene.id)) :
    (changeThreshold s n).updateEdges = network2jsEdgesAt net s.threshold ∧
    ∀ js, (network2js env net).result = .ok js → js.threshold = s.threshold →
      (changeThreshold s n).updateEdges = .ok js.edges := by
  have hlen : s.data.nodes.length = net.genes.length := by
    have := congrArg List.length hids
    simpa using this
  have h1 : (changeThreshold s n).updateEdges = network2jsEdgesAt net s.threshold := by
    unfold changeThreshold network2jsEdgesAt
    simp only [hsel, hbuf, hlen, length_wrapGenes]
    cases decodeScores net.buffer net.genes.length with
    | error e => rfl
    | ok data => exact buildEdges_ids _ _ data _ (by rw [hids, ids_wrapGenes])
  refine ⟨h1, fun js hrun hthr => ?_⟩
  obtain ⟨data, groups, cg, hdec, hedges, -, -, -, -, -⟩ := network2js_ok env net js hrun
  rw [h1]
  unfold network2jsEdgesAt
  simp only [length_wrapGenes, hdec]
  rw [← hthr]
  exact hedges

/-- Witness of C7: the state right after the five-gene example network is
drawn; `changeThreshold` recomputes the edges `network2js` returned. -/
theorem changeThreshold_edges_witness :
    ∃ js, (network2js exampleEnv exampleNetwork).result = .ok js ∧
      (changeThreshold
        { threshold := js.threshold, data := js, selectedTissue := "data",
          tissues := fun _ => none } 1).updateEdges = .ok js.edges := by
  obtain ⟨js, hjs⟩ := exists_ok_of_isOk (network2js exampleEnv exampleNetwork).result (by decide!)
  obtain ⟨-, -, -, -, -, -, -, -, -, hbuf⟩ := network2js_ok exampleEnv exampleNetwork js hjs
  exact ⟨js, hjs, (changeThreshold_edges exampleEnv exampleNetwork
    { threshold := js.threshold, data := js, selectedTissue := "data", tissues := fun _ => none }
    1 js rfl hbuf (network2js_nodes_ids exampleEnv exampleNetwork js hjs)).2 js hjs rfl⟩

theorem groupIdsOf_eq_nil (customs : List CustomGroup) (id : String) :
    groupIdsOf customs id = [] ↔ ∀ group ∈ customs, id ∉ group.genes := by
  unfold groupIdsOf
  simp only [List.flatMap_eq_nil_iff, List.map_eq_nil_iff, List.filter_eq_nil_iff,
    decide_eq_true_eq]
  constructor
  · intro h group hg hid
    exact h group hg id hid rfl
  · intro h group hg gene hgene he
    exact h group hg (he ▸ hgene)

theorem pushedIds_of_nodup (genes : List Gene)
    (hnd : (genes.map (fun gene => gene.id)).Nodup) (customs : List CustomGroup)
    (k : Nat) (gene : Gene) (hk : genes[k]? = some gene) :
    pushedIds (indexBy (wrapGenes genes)) customs k = groupIdsOf customs gene.id := by
  have hw : (wrapGenes genes)[k]? = some { data := gene, customGroups := none } := by
    unfold wrapGenes
    rw [List.getElem?_map, hk]
    rfl
  have hp : ∀ id : String,
      decide (indexBy (wrapGenes genes) id = some k) = decide (id = gene.id) := by
    intro id
    congr 1
    apply propext
    constructor
    · intro h
      obtain ⟨node, hn, hid⟩ := indexBy_some _ _ _ h
      rw [hw] at hn
      simp only [Option.some.injEq] at hn
      rw [← hid, ← hn]
    · intro h
      subst h
      exact indexBy_of_nodup (wrapGenes genes) (by rw [ids_wrapGenes]; exact hnd) k _ hw
  unfold pushedIds groupIdsOf
  simp only [hp]

/-- C9: after a successful run of `network2js` on a network whose gene ids are
pairwise distinct, the nodes are the genes in their order, and a node whose id
is listed by some custom group has as `customGroups` the ids of the custom
groups listing it, in the order the groups are supplied, one entry per
occurrence of its id in a gene list, while a node listed by no custom group has
no `customGroups`; this holds whether or not the clustering ran. -/
theorem network2js_customGroups (env : Env) (net : Network) (js : NetworkJs)
    (hnd : (net.genes.map (fun gene => gene.id)).Nodup)
    (hrun : (network2js env net).result = .ok js) :
    js.nodes.map (fun node => node.data) = net.genes ∧
    ∀ node ∈ js.nodes,
      ((∃ group ∈ net.groups, node.data.id ∈ group.genes) →
        node.customGroups = some (groupIdsOf net.groups node.data.id)) ∧
      ((∀ group ∈ net.groups, node.data.id ∉ group.genes) → node.customGroups = none) := by
  refine ⟨network2js_nodes_data env net js hrun, fun node hnode => ?_⟩
  obtain ⟨k, hk⟩ := List.mem_iff_getElem?.mp hnode
  rw [network2js_nodes env net js hrun k] at hk
  cases hg : net.genes[k]? with
  | none =>
    unfold wrapGenes at hk
    rw [List.getElem?_map, hg] at hk
    cases hk
  | some gene =>
    have hw : (wrapGenes net.genes)[k]? = some { data := gene, customGroups := none } := by
      unfold wrapGenes
      rw [List.getElem?_map, hg]
      rfl
    rw [hw, pushedIds_of_nodup net.genes hnd net.groups k gene hg] at hk
    simp only [Option.map_some', Option.some.injEq] at hk
    subst hk
    have hid : (annotate (groupIdsOf net.groups gene.id)
        { data := gene, customGroups := none }).data.id = gene.id := by
      rw [data_annotate]
    rw [hid, customGroups_annotate]
    constructor
    · intro hex
      have hne : groupIdsOf net.groups gene.id ≠ [] := by
        rw [Ne, groupIdsOf_eq_nil]
        intro hall
        obtain ⟨group, hgm, hin⟩ := hex
        exact hall group hgm hin
      simp [hne]
    · intro hall
      have he : groupIdsOf net.groups gene.id = [] := (groupIdsOf_eq_nil _ _).mpr hall
      simp [he]

/-- Witness of C9: on the five-gene example, `a` is in group `7`, `b` in the
groups `7` and `9`, and the other nodes carry no `customGroups`, although all
five are members of cluster groups. -/
theorem network2js_customGroups_witness :
    ∃ js, (network2js exampleEnv exampleNetwork).result = .ok js ∧
      js.nodes.map (fun node => (node.data.id, node.customGroups))
        = [("a", some [7]), ("b", some [7, 9]), ("c", none), ("d", none), ("e", none)] ∧
      js.nodes.map (fun node => node.data) = exampleNetwork.genes ∧
      ∀ node ∈ js.nodes,
        ((∃ group ∈ exampleNetwork.groups, node.data.id ∈ group.genes) →
          node.customGroups = some (groupIdsOf exampleNetwork.groups node.data.id)) ∧
        ((∀ group ∈ exampleNetwork.groups, node.data.id ∉ group.genes) →
          node.customGroups = none) := by
  obtain ⟨js, hjs⟩ := exists_ok_of_isOk (network2js exampleEnv exampleNetwork).result (by decide!)
  have hval : (network2js exampleEnv exampleNetwork).result.map
      (fun js => js.nodes.map (fun node => (node.data.id, node.customGroups)))
      = .ok [("a", some [7]), ("b", some [7, 9]), ("c", none), ("d", none), ("e", none)] := by
    decide!
  rw [hjs] at hval
  simp only [Except.map, Except.ok.injEq] at hval
  exact ⟨js, hjs, hval, network2js_customGroups exampleEnv exampleNetwork js (by decide) hjs⟩

/-! ## Failure of the custom group step -/

theorem annotateGenes_ok_of_resolved (hashNodes : String → Option Nat) (groupId : Nat)
    (genes : List String)
    (hk : ∀ id ∈ genes, hashNodes id ≠ none ∨ id ∈ objectPrototypeKeys) :
    ∀ nodes, ∃ nodes', genes.foldlM (annotateGene hashNodes groupId) nodes = .ok nodes' := by
  induction genes with
  | nil => intro nodes; exact ⟨nodes, rfl⟩
  | cons id genes ih =>
    intro nodes
    rw [List.foldlM_cons]
    unfold annotateGene
    cases hh : hashNodes id with
    | none =>
      have hin : id ∈ objectPrototypeKeys := by
        rcases hk id (List.mem_cons_self _ _) with h | h
        · exact absurd hh h
        · exact h
      simp only [hin, if_true, Except.ok_bind]
      exact ih (fun x hx => hk x (List.mem_cons_of_mem _ hx)) _
    | some j =>
      simp only [Except.ok_bind]
      exact ih (fun x hx => hk x (List.mem_cons_of_mem _ hx)) _

theorem annotateGenes_error (hashNodes : String → Option Nat) (groupId : Nat)
    (genes : List String)
    (hk : ∃ id ∈ genes, hashNodes id = none ∧ id ∉ objectPrototypeKeys) :
    ∀ nodes, genes.foldlM (annotateGene hashNodes groupId) nodes = .error .typeError := by
  induction genes with
  | nil => obtain ⟨id, hid, -⟩ := hk; cases hid
  | cons id genes ih =>
    intro nodes
    have htail : (∃ x ∈ genes, hashNodes x = none ∧ x ∉ objectPrototypeKeys) ∨
        (hashNodes id = none ∧ id ∉ objectPrototypeKeys) := by
      obtain ⟨x, hx, hxn⟩ := hk
      rcases List.mem_cons.mp hx with rfl | hx'
      · exact Or.inr hxn
      · exact Or.inl ⟨x, hx', hxn⟩
    rw [List.foldlM_cons]
    unfold annotateGene
    cases hh : hashNodes id with
    | none =>
      by_cases hin : id ∈ objectPrototypeKeys
      · simp only [hin, if_true, Except.ok_bind]
        apply ih
        rcases htail with h | h
        · exact h
        · exact absurd hin h.2
      · simp only [hin, if_false]
        rfl
    | some j =>
      simp only [Except.ok_bind]
      apply ih
      rcases htail with h | h
      · exact h
      · rw [hh] at h
        cases h.1

theorem addCustomGroups_ok_of_resolved (hashNodes : String → Option Nat)
    (customs : List CustomGroup)
    (hk : ∀ group ∈ customs, ∀ id ∈ group.genes,
      hashNodes id ≠ none ∨ id ∈ objectPrototypeKeys) :
    ∀ st, ∃ st', addCustomGroups hashNodes customs st = .ok st' := by
  induction customs with
  | nil => intro st; exact ⟨st, rfl⟩
  | cons g customs ih =>
    intro st
    simp only [addCustomGroups, List.foldlM_cons]
    unfold addCustomGroup
    obtain ⟨nodes, hn⟩ := annotateGenes_ok_of_resolved hashNodes g.id g.genes
      (hk g (List.mem_cons_self _ _)) st.2
    simp only [hn, Except.ok_bind]
    exact ih (fun x hx => hk x (List.mem_cons_of_mem _ hx)) _

theorem addCustomGroups_error (hashNodes : String → Option Nat) (customs : List CustomGroup)
    (hk : ∃ group ∈ customs, ∃ id ∈ group.genes,
      hashNodes id = none ∧ id ∉ objectPrototypeKeys) :
    ∀ st, addCustomGroups hashNodes customs st = .error .typeError := by
  induction customs with
  | nil => obtain ⟨g, hg, -⟩ := hk; cases hg
  | cons g customs ih =>
    intro st
    simp only [addCustomGroups, List.foldlM_cons]
    unfold addCustomGroup
    by_cases hgk : ∃ id ∈ g.genes, hashNodes id = none ∧ id ∉ objectPrototypeKeys
    · rw [annotateGenes_error hashNodes g.id g.genes hgk]
      rfl
    · have hall : ∀ id ∈ g.genes, hashNodes id ≠ none ∨ id ∈ objectPrototypeKeys := by
        intro id hid
        by_cases hn : hashNodes id = none
        · by_cases hin : id ∈ objectPrototypeKeys
          · exact Or.inr hin
          · exact absurd ⟨id, hid, hn, hin⟩ hgk
        · exact Or.inl hn
      obtain ⟨nodes, hn⟩ := annotateGenes_ok_of_resolved hashNodes g.id g.genes hall st.2
      simp only [hn, Except.ok_bind]
      apply ih
      obtain ⟨x, hx, hxk⟩ := hk
      rcases List.mem_cons.mp hx with rfl | hx'
      · exact absurd hxk hgk
      · exact ⟨x, hx', hxk⟩

/-- The custom group step raises on a network with a group that lists an id that
is neither the id of a node nor the name of an inherited function. -/
theorem addCustomGroups_of_unknown (net : Network)
    (hk : ∃ group ∈ net.groups, ∃ id ∈ group.genes,
      id ∉ net.genes.map (fun gene => gene.id) ∧ id ∉ objectPrototypeKeys)
    (st : List Group × List Node) :
    addCustomGroups (indexBy (wrapGenes net.genes)) net.groups st = .error .typeError := by
  apply addCustomGroups_error
  obtain ⟨group, hg, id, hid, hn, hin⟩ := hk
  refine ⟨group, hg, id, hid, ?_, hin⟩
  rw [indexBy_eq_none, ids_wrapGenes]
  exact hn

/-- The custom group step returns on a network whose groups list ids of nodes and
names of inherited functions only. -/
theorem addCustomGroups_of_resolved (net : Network)
    (hk : ∀ group ∈ net.groups, ∀ id ∈ group.genes,
      id ∈ net.genes.map (fun gene => gene.id) ∨ id ∈ objectPrototypeKeys)
    (st : List Group × List Node) :
    ∃ st', addCustomGroups (indexBy (wrapGenes net.genes)) net.groups st = .ok st' := by
  apply addCustomGroups_ok_of_resolved
  intro group hg id hid
  rcases hk group hg id hid with h | h
  · left
    rw [Ne, indexBy_eq_none, ids_wrapGenes]
    exact fun hn => hn h
  · exact Or.inr h

/-- Counterexample to C17: the five-gene example with a custom group that lists
`constructor`. The id is the id of no node, yet `hashNodes['constructor']` is
the inherited function `Object`, the custom group step raises nothing and
`network2js` returns a graph; its nodes carry the group ids of the listed node
ids only. -/
theorem network2js_customGroups_inherited_key :
    (∃ group ∈ constructorNetwork.groups, ∃ id ∈ group.genes,
      id ∉ constructorNetwork.genes.map (fun gene => gene.id)) ∧
    (∃ st, addCustomGroups (indexBy (wrapGenes constructorNetwork.genes))
      constructorNetwork.groups
      ([allGenesGroup (wrapGenes constructorNetwork.genes)],
        wrapGenes constructorNetwork.genes) = .ok st) ∧
    ∃ js, (network2js exampleEnv constructorNetwork).result = .ok js ∧
      js.nodes.map (fun node => (node.data.id, node.customGroups))
        = [("a", some [7]), ("b", some [7, 9]), ("c", none), ("d", none), ("e", none)] := by
  refine ⟨by decide, addCustomGroups_of_resolved constructorNetwork (by decide) _, ?_⟩
  obtain ⟨js, hjs⟩ :=
    exists_ok_of_isOk (network2js exampleEnv constructorNetwork).result (by decide!)
  have hval : (network2js exampleEnv constructorNetwork).result.map
      (fun js => js.nodes.map (fun node => (node.data.id, node.customGroups)))
      = .ok [("a", some [7]), ("b", some [7, 9]), ("c", none), ("d", none), ("e", none)] := by
    decide!
  rw [hjs] at hval
  simp only [Except.map, Except.ok.injEq] at hval
  exact ⟨js, hjs, hval⟩

/-- C17, amended: for a network without the key `__proto__`, the custom group
step of `network2js` raises if and only if some supplied custom group lists a
gene id that is neither the id of a node nor the name of a function that
`hashNodes` inherits from `Object.prototype` (`constructor`, `toString`,
`valueOf`, `hasOwnProperty` and the others of `objectPrototypeKeys`); when
every listed id is a node id the step returns, and when a group lists such an
unresolved id, a run whose buffer decodes raises the `TypeError` of the step,
before any clustering call. -/
theorem network2js_customGroups_failure (env : Env) (net : Network) (_ : ProtoFree net) :
    ((∃ e, addCustomGroups (indexBy (wrapGenes net.genes)) net.groups
        ([allGenesGroup (wrapGenes net.genes)], wrapGenes net.genes) = .error e)
      ↔ ∃ group ∈ net.groups, ∃ id ∈ group.genes,
          id ∉ net.genes.map (fun gene => gene.id) ∧ id ∉ objectPrototypeKeys) ∧
    ((∀ group ∈ net.groups, ∀ id ∈ group.genes, id ∈ net.genes.map (fun gene => gene.id)) →
      ∃ st, addCustomGroups (indexBy (wrapGenes net.genes)) net.groups
        ([allGenesGroup (wrapGenes net.genes)], wrapGenes net.genes) = .ok st) ∧
    ((∃ group ∈ net.groups, ∃ id ∈ group.genes,
        id ∉ net.genes.map (fun gene => gene.id) ∧ id ∉ objectPrototypeKeys) →
      2 * numPairs net.genes.length ≤ net.buffer.length →
      (network2js env net).result = .error .typeError ∧ (network2js env net).calls = []) := by
  refine ⟨⟨?_, ?_⟩, ?_, ?_⟩
  · rintro ⟨e, he⟩
    by_contra hno
    push_neg at hno
    obtain ⟨st, hst⟩ := addCustomGroups_of_resolved net
      (fun group hg id hid => by
        by_cases hmem : id ∈ net.genes.map (fun gene => gene.id)
        · exact Or.inl hmem
        · exact Or.inr (hno group hg id hid hmem))
      ([allGenesGroup (wrapGenes net.genes)], wrapGenes net.genes)
    rw [hst] at he
    cases he
  · intro h
    exact ⟨.typeError, addCustomGroups_of_unknown net h _⟩
  · intro hk
    exact addCustomGroups_of_resolved net (fun group hg id hid => Or.inl (hk group hg id hid)) _
  · intro h hlen
    have hcust := addCustomGroups_of_unknown net h
      ([allGenesGroup (wrapGenes net.genes)], wrapGenes net.genes)
    obtain ⟨data, hdec, -⟩ := decodeFrom_ok net.buffer (numPairs net.genes.length) 0 (by omega)
    obtain ⟨edges, hedges⟩ := buildEdges_total (wrapGenes net.genes) data
      (defaultThreshold env.quicksort data net.genes.length)
    have hdec' : decodeScores net.buffer net.genes.length = .ok data := hdec
    unfold network2js
    simp [length_wrapGenes, hdec', hedges, hcust]

/-- Witness of C17: the custom group step returns on the five-gene example, the
run raises a `TypeError` once a group lists the unknown gene `z`, and the step
raises nothing on the group that lists `constructor`. -/
theorem network2js_customGroups_failure_witness :
    ProtoFree exampleNetwork ∧ ProtoFree unknownNetwork ∧ ProtoFree constructorNetwork ∧
    (∃ st, addCustomGroups (indexBy (wrapGenes exampleNetwork.genes)) exampleNetwork.groups
        ([allGenesGroup (wrapGenes exampleNetwork.genes)], wrapGenes exampleNetwork.genes)
        = .ok st) ∧
    ((network2js exampleEnv unknownNetwork).result = .error .typeError ∧
      (network2js exampleEnv unknownNetwork).calls = []) ∧
    ¬ (∃ e, addCustomGroups (indexBy (wrapGenes constructorNetwork.genes))
        constructorNetwork.groups
        ([allGenesGroup (wrapGenes constructorNetwork.genes)],
          wrapGenes constructorNetwork.genes) = .error e) :=
  ⟨by decide, by decide, by decide,
    (network2js_customGroups_failure exampleEnv exampleNetwork (by decide)).2.1 (by decide),
    (network2js_customGroups_failure exampleEnv unknownNetwork (by decide)).2.2
      (by decide) (by decide),
    fun h => absurd
      ((network2js_customGroups_failure exampleEnv constructorNetwork (by decide)).1.mp h)
      (by decide)⟩

theorem numPairs_few (numNodes : Nat) (h : numNodes ≤ 1) : numPairs numNodes = 0 := by
  unfold numPairs
  rcases Nat.le_one_iff_eq_zero_or_eq_one.mp h with rfl | rfl <;> rfl

/-- Counterexample to C11: on a network of one gene the threshold selection
reads index `0` of the empty sorted array, which holds nothing, and the
threshold is `NaN`, not a value of at least `15`. -/
theorem network2js_threshold_one_gene :
    ∃ js, (network2js exampleEnv oneNetwork).result = .ok js ∧
      js.threshold = none ∧
      (¬ ∃ x : ℚ, js.threshold = some x ∧ 15 ≤ x) ∧
      (exampleEnv.quicksort [])[(max (0 : Int)
        (((exampleEnv.quicksort []).length : Int) - ((1 : Nat) : Int) * 2)).toNat]? = none := by
  obtain ⟨js, hjs⟩ := exists_ok_of_isOk (network2js exampleEnv oneNetwork).result (by decide!)
  have hval : (network2js exampleEnv oneNetwork).result.map (fun js => js.threshold)
      = .ok none := by decide!
  rw [hjs] at hval
  simp only [Except.map, Except.ok.injEq] at hval
  refine ⟨js, hjs, hval, ?_, by decide⟩
  rintro ⟨x, hx, -⟩
  rw [hval] at hx
  cases hx

theorem buildEdges_few (nodes : List Node) (data : List ℚ) (threshold : Option ℚ)
    (h : nodes.length ≤ 1) : buildEdges nodes data threshold = .ok [] := by
  cases threshold with
  | none => exact buildEdges_nan nodes data
  | some T =>
    rw [buildEdges_eq]
    unfold thresholdEdges
    have hl : (nodes.map (fun node => node.data.id)).length ≤ 1 := by simpa using h
    rcases Nat.le_one_iff_eq_zero_or_eq_one.mp hl with h0 | h1
    · rw [h0]; rfl
    · rw [h1]; rfl

theorem defaultThreshold_lt (quicksort : List ℚ → List ℚ) (data : List ℚ) (numNodes : Nat) :
    ¬ ∃ x : ℚ, defaultThreshold quicksort data numNodes = some x ∧ 15 ≤ x := by
  rintro ⟨x, hx, h15⟩
  unfold defaultThreshold at hx
  simp only at hx
  rw [ceiling_eq] at hx
  cases hq : (quicksort data)[(max (0 : Int)
      (((quicksort data).length : Int) - (numNodes : Int) * 2)).toNat]? with
  | none => rw [hq] at hx; cases hx
  | some y =>
    rw [hq] at hx
    simp only [mathMin, Option.some.injEq] at hx
    have h14 : x ≤ 15 - 1 := hx ▸ min_le_left _ _
    linarith

/-- C11, amended: with `N ≤ 1` nodes and custom groups of known genes, the
threshold selection of `network2js` raises no exception and `network2js`
returns; the threshold is not a value of at least `15`, being capped by
`Math.min(15 - 1, ...)`; the edge list is empty. -/
theorem network2js_threshold_few_nodes (env : Env) (net : Network)
    (hN : net.genes.length ≤ 1) (hknown : GroupsKnown net) :
    ∃ js, (network2js env net).result = .ok js ∧
      (¬ ∃ x : ℚ, js.threshold = some x ∧ 15 ≤ x) ∧ js.edges = [] := by
  have hdec : decodeScores net.buffer net.genes.length = .ok [] := by
    unfold decodeScores
    rw [numPairs_few _ hN]
    rfl
  have hedges : buildEdges (wrapGenes net.genes) []
      (defaultThreshold env.quicksort [] net.genes.length) = .ok [] :=
    buildEdges_few _ _ _ (by rw [length_wrapGenes]; exact hN)
  obtain ⟨⟨groups, nodes⟩, hcust⟩ := addCustomGroups_of_known net hknown
    ([allGenesGroup (wrapGenes net.genes)], wrapGenes net.genes)
  obtain ⟨-, hres⟩ := network2js_of_stages env net [] [] groups nodes hdec hedges hcust
  rw [clusterStep_small env [] nodes _ (by omega)] at hres
  exact ⟨_, hres, defaultThreshold_lt env.quicksort [] net.genes.length, rfl⟩

/-- Witness of C11, amended: the network of one gene. -/
theorem network2js_threshold_few_nodes_witness :
    ∃ js, (network2js exampleEnv oneNetwork).result = .ok js ∧
      (¬ ∃ x : ℚ, js.threshold = some x ∧ 15 ≤ x) ∧ js.edges = [] :=
  network2js_threshold_few_nodes exampleEnv oneNetwork (by decide) (by decide)

/-- Counterexample to C12: with five genes, a collaborator that throws makes
`network2js` raise that exception, and one that returns no exemplar for its
five assigned nodes makes it raise a `TypeError`; no graph is returned. -/
theorem network2js_clustering_aborts :
    4 < exampleNetwork.genes.length ∧
    (network2js failingEnv exampleNetwork).result = .error .clusteringFailed ∧
    (network2js noExemplarEnv exampleNetwork).result = .error .typeError := by
  decide!

/-- C12, amended: on an input of `N > 4` nodes that reaches the clustering
block, when the call of the collaborator whose outcome is kept (the first, or
the second after a first result of one exemplar) raises, `network2js` raises
the same exception and returns no graph; when it returns an empty exemplar
list, `network2js` returns a graph with exactly the groups `'All genes'`, the
custom groups and `'My selection'` if the `clusters` array is empty too, and
raises a `TypeError` if it is not. -/
theorem network2js_clustering_failure (env : Env) (net : Network) (data : List ℚ)
    (hN : 4 < net.genes.length)
    (hdec : decodeScores net.buffer net.genes.length = .ok data)
    (hknown : GroupsKnown net) :
    (∀ e, (getClustersRetry env data).2 = .error e →
      (network2js env net).result = .error e) ∧
    (∀ clusters, (getClustersRetry env data).2 = .ok clusters → clusters.exemplars = [] →
      (clusters.clusters = [] →
        ∃ js, (network2js env net).result = .ok js ∧
          js.groups = allGenesGroup (wrapGenes net.genes)
            :: (net.groups.map customGroup ++ [mySelectionGroup])) ∧
      (clusters.clusters ≠ [] → (network2js env net).result = .error .typeError)) := by
  obtain ⟨edges, hedges⟩ := buildEdges_total (wrapGenes net.genes) data
    (defaultThreshold env.quicksort data net.genes.length)
  obtain ⟨⟨groups, nodes⟩, hcust⟩ := addCustomGroups_of_known net hknown
    ([allGenesGroup (wrapGenes net.genes)], wrapGenes net.genes)
  have hgroups : groups = [allGenesGroup (wrapGenes net.genes)] ++ net.groups.map customGroup :=
    (addCustomGroups_spec _ _ _ _ hcust).1
  obtain ⟨-, hres⟩ := network2js_of_stages env net data edges groups nodes hdec hedges hcust
  rw [clusterStep_large env data nodes _ hN] at hres
  simp only [] at hres
  constructor
  · intro e he
    rw [hres, he]
  · intro clusters hc hex
    constructor
    · intro hcl
      have hcreate : createClusterGroups nodes clusters = .ok [] := by
        unfold createClusterGroups fillClusterGroups
        rw [hex, hcl]
        rfl
      rw [hc] at hres
      simp only [hcreate] at hres
      exact ⟨_, hres, by simp [hgroups]⟩
    · intro hcl
      have hcreate : createClusterGroups nodes clusters = .error .typeError := by
        unfold createClusterGroups fillClusterGroups
        rw [hex]
        obtain ⟨c, rest, hcr⟩ := List.exists_cons_of_ne_nil hcl
        rw [hcr]
        rfl
      rw [hc] at hres
      simp only [hcreate] at hres
      exact hres

/-- Witness of C12, amended: the five-gene example with a collaborator that
throws, and with one that returns two empty arrays. -/
theorem network2js_clustering_failure_witness :
    (network2js failingEnv exampleNetwork).result = .error .clusteringFailed ∧
    ∃ js, (network2js emptyEnv exampleNetwork).result = .ok js ∧
      js.groups = allGenesGroup (wrapGenes exampleNetwork.genes)
        :: (exampleNetwork.groups.map customGroup ++ [mySelectionGroup]) :=
  ⟨(network2js_clustering_failure failingEnv exampleNetwork
      [1, -2, 3, 0, 5 / 1000, 6 / 1000, 7 / 1000, 8 / 1000, 9 / 1000, 10 / 1000]
      (by decide) (by decide!) (by decide)).1 .clusteringFailed rfl,
    ((network2js_clustering_failure emptyEnv exampleNetwork
      [1, -2, 3, 0, 5 / 1000, 6 / 1000, 7 / 1000, 8 / 1000, 9 / 1000, 10 / 1000]
      (by decide) (by decide!) (by decide)).2 { exemplars := [], clusters := [] } rfl rfl).1 rfl⟩

/-- The nodes of a successful run depend on the genes and the custom groups only. -/
theorem network2js_nodes_congr (env env' : Env) (net net' : Network) (js js' : NetworkJs)
    (hgenes : net'.genes = net.genes) (hgroups : net'.groups = net.groups)
    (hrun : (network2js env net).result = .ok js)
    (hrun' : (network2js env' net').result = .ok js') : js'.nodes = js.nodes := by
  apply List.ext_getElem?
  intro k
  rw [network2js_nodes env' net' js' hrun' k, network2js_nodes env net js hrun k, hgenes,
    hgroups]

/-- Counterexample to C13: the five-gene example has two non-empty custom
groups; a second run on the gene objects of the first run returns `b` with the
group ids `[7, 9]` again, not `[7, 9, 7, 9]`, and `a` with `[7]`, not `[7, 7]`. -/
theorem network2js_second_run :
    ∃ js js', (network2js exampleEnv exampleNetwork).result = .ok js ∧
      (network2js exampleEnv
        { exampleNetwork with genes := js.nodes.map (fun node => node.data) }).result
        = .ok js' ∧
      js'.nodes.map (fun node => (node.data.id, node.customGroups))
        = [("a", some [7]), ("b", some [7, 9]), ("c", none), ("d", none), ("e", none)] := by
  obtain ⟨js, hjs⟩ := exists_ok_of_isOk (network2js exampleEnv exampleNetwork).result (by decide!)
  have hval : (network2js exampleEnv exampleNetwork).result.map
      (fun js => js.nodes.map (fun node => (node.data.id, node.customGroups)))
      = .ok [("a", some [7]), ("b", some [7, 9]), ("c", none), ("d", none), ("e", none)] := by
    decide!
  rw [hjs] at hval
  simp only [Except.map, Except.ok.injEq] at hval
  have hsame : ({ exampleNetwork with genes := js.nodes.map (fun node => node.data) } : Network)
      = exampleNetwork := by
    rw [network2js_nodes_data exampleEnv exampleNetwork js hjs]
  exact ⟨js, js, hjs, by rw [hsame]; exact hjs, hval⟩

/-- C13, amended: group assembly by `network2js` is idempotent under
repetition: the first run leaves the gene objects as they were, a second run
on them with the same custom groups and the same collaborators returns the
same graph, and with any collaborators a second run that returns has the nodes
of the first run, `customGroups` lists included, so no entry is duplicated;
each run sets `customGroups` on node wrappers of its own. -/
theorem network2js_rerun_nodes (env env' : Env) (net : Network) (js js' : NetworkJs)
    (hrun : (network2js env net).result = .ok js)
    (hrun' : (network2js env'
      { net with genes := js.nodes.map (fun node => node.data) }).result = .ok js') :
    js.nodes.map (fun node => node.data) = net.genes ∧
    (network2js env { net with genes := js.nodes.map (fun node => node.data) }).result
      = .ok js ∧
    js'.nodes = js.nodes ∧
    js'.nodes.map (fun node => node.customGroups)
      = js.nodes.map (fun node => node.customGroups) := by
  have hdata := network2js_nodes_data env net js hrun
  have hnodes : js'.nodes = js.nodes :=
    network2js_nodes_congr env env' net
      { net with genes := js.nodes.map (fun node => node.data) } js js' hdata rfl hrun hrun'
  have hsame : ({ net with genes := js.nodes.map (fun node => node.data) } : Network) = net := by
    rw [hdata]
  exact ⟨hdata, by rw [hsame]; exact hrun, hnodes, by rw [hnodes]⟩

/-- Witness of C13, amended: two runs on the five-gene example. -/
theorem network2js_rerun_nodes_witness :
    ∃ js js', (network2js exampleEnv exampleNetwork).result = .ok js ∧
      (network2js emptyEnv
        { exampleNetwork with genes := js.nodes.map (fun node => node.data) }).result
        = .ok js' ∧
      js'.nodes = js.nodes := by
  obtain ⟨js, hjs⟩ := exists_ok_of_isOk (network2js exampleEnv exampleNetwork).result (by decide!)
  obtain ⟨js', hjs'⟩ := exists_ok_of_isOk (network2js emptyEnv exampleNetwork).result
    (by decide!)
  have hsame : ({ exampleNetwork with genes := js.nodes.map (fun node => node.data) } : Network)
      = exampleNetwork := by
    rw [network2js_nodes_data exampleEnv exampleNetwork js hjs]
  have hjs'' : (network2js emptyEnv
      { exampleNetwork with genes := js.nodes.map (fun node => node.data) }).result
      = .ok js' := by rw [hsame]; exact hjs'
  exact ⟨js, js', hjs, hjs'',
    (network2js_rerun_nodes exampleEnv emptyEnv exampleNetwork js js' hjs hjs'').2.2.1⟩

/-- C14: the code at a failing input.  The state holds the network of three
genes with the scores `1`, `-2`, `3` and the threshold `2`; `changeThreshold(1)`
stores the threshold `3` and passes to `updateEdges` the two edges of the
previous threshold `2`, where the pairs with `|score| ≥ 3` are the pair
`(b, c)` alone. -/
theorem changeThreshold_previous_threshold :
    (network2js exampleEnv smallNetwork).result = .ok smallJs ∧
    (changeThreshold clickedState 1).state.threshold = some 3 ∧
    (changeThreshold clickedState 1).updateEdges
      = .ok [⟨"a", "c", -2⟩, ⟨"b", "c", 3⟩] ∧
    thresholdEdges ["a", "b", "c"] [1, -2, 3] 3 = [⟨"b", "c", 3⟩] := by
  decide!

/-! ## Counting the edges -/

theorem map_sub_range' (n : Nat) :
    ∀ s S : Nat, (List.range' s n).map (fun i => S + (i - s)) = List.range' S n := by
  induction n with
  | zero => intro s S; rfl
  | succ n ih =>
    intro s S
    rw [List.range'_succ, List.range'_succ, List.map_cons, ← ih (s + 1) (S + 1)]
    simp only [Nat.sub_self, Nat.add_zero, List.cons.injEq, true_and]
    apply List.map_congr_left
    intro i hi
    have := (List.mem_range'_1.mp hi).1
    omega

theorem flatPos_rows (numNodes k : Nat) (hk : k ≤ numNodes) :
    (List.range k).flatMap (fun i1 =>
        (List.range' (i1 + 1) (numNodes - (i1 + 1))).map (fun i2 => flatPos numNodes i1 i2))
      = List.range' 0 (flatPos numNodes k (k + 1)) := by
  induction k with
  | zero => simp [flatPos_zero]
  | succ k ih =>
    rw [List.range_succ, List.flatMap_append, ih (by omega), flatPos_succ_row _ _ (by omega)]
    simp only [List.flatMap_cons, List.flatMap_nil, List.append_nil]
    have hrow : (List.range' (k + 1) (numNodes - (k + 1))).map (fun i2 => flatPos numNodes k i2)
        = List.range' (flatPos numNodes k (k + 1)) (numNodes - (k + 1)) := by
      rw [← map_sub_range' _ (k + 1) (flatPos numNodes k (k + 1))]
      apply List.map_congr_left
      intro i2 _
      exact flatPos_row numNodes k i2
    rw [hrow]
    have := List.range'_append_1 0 (flatPos numNodes k (k + 1)) (numNodes - (k + 1))
    rw [Nat.zero_add] at this
    rw [this, Nat.add_comm]

theorem flatPos_last (numNodes : Nat) :
    flatPos numNodes numNodes (numNodes + 1) = numPairs numNodes := by
  cases numNodes with
  | zero => rfl
  | succ m =>
    have h1 := flatPos_succ_row (m + 1) m (by omega)
    have h2 := flatPos_full (m + 1) m (by omega)
    have h3 : numPairs (m + 1 - (m + 1)) = 0 := by rw [Nat.sub_self]; rfl
    rw [h3] at h2
    omega

/-- The flat positions of the pairs, in row-major order, are `0, 1, ..., N(N-1)/2 - 1`. -/
theorem map_flatPos_upperPairs (numNodes : Nat) :
    (upperPairs numNodes).map (fun p => flatPos numNodes p.1 p.2)
      = List.range (numPairs numNodes) := by
  unfold upperPairs
  rw [List.map_flatMap]
  have hrow : ∀ i1, (((List.range numNodes).filter (fun i2 => decide (i1 < i2))).map
        (fun i2 => (i1, i2))).map (fun p => flatPos numNodes p.1 p.2)
      = (List.range' (i1 + 1) (numNodes - (i1 + 1))).map (fun i2 => flatPos numNodes i1 i2) := by
    intro i1
    rw [List.map_map, filter_lt_range]
    rfl
  simp only [hrow]
  rw [flatPos_rows numNodes numNodes (Nat.le_refl _), flatPos_last, List.range_eq_range']

theorem countP_range_getElem? (q : Option ℚ → Bool) (data : List ℚ) :
    (List.range data.length).countP (fun k => q data[k]?) = data.countP (fun w => q (some w)) := by
  induction data using List.reverseRecOn with
  | nil => rfl
  | append_singleton l a ih =>
    rw [List.length_append, List.length_singleton, List.range_succ, List.countP_append,
      List.countP_append, ← ih]
    have h1 : (List.range l.length).countP (fun k => q (l ++ [a])[k]?)
        = (List.range l.length).countP (fun k => q l[k]?) := by
      apply List.countP_congr
      intro k hk
      rw [List.getElem?_append_left (List.mem_range.mp hk)]
    have h2 : [l.length].countP (fun k => q (l ++ [a])[k]?)
        = [a].countP (fun w => q (some w)) := by
      simp [List.countP_cons]
    rw [h1, h2]

theorem isSome_pairEdge (ids : List String) (data : List ℚ) (T : ℚ) (i1 i2 pos : Nat)
    (h1 : i1 < ids.length) (h2 : i2 < ids.length) :
    (pairEdge ids data T i1 i2 pos).isSome = absGe data[pos]? (some T) := by
  unfold pairEdge absGe
  rw [List.getElem?_eq_getElem h1, List.getElem?_eq_getElem h2]
  cases data[pos]? with
  | none => rfl
  | some w =>
    by_cases hT : T ≤ |w|
    · simp [hT]
    · simp [hT]

/-- The number of edges is the number of scores that pass the threshold. -/
theorem length_thresholdEdges (ids : List String) (data : List ℚ) (T : ℚ)
    (hlen : data.length = numPairs ids.length) :
    (thresholdEdges ids data T).length = data.countP (fun w => absGe (some w) (some T)) := by
  unfold thresholdEdges
  rw [List.length_filterMap_eq_countP, ← countP_range_getElem? (fun o => absGe o (some T)),
    hlen, ← map_flatPos_upperPairs, List.countP_map]
  apply List.countP_congr
  intro p hp
  obtain ⟨h1, h2⟩ := (mem_upperPairs _ p).mp hp
  simp only [Function.comp]
  rw [isSome_pairEdge ids data T p.1 p.2 _ (by omega) h2]

/-- In an ascending list the elements from position `idx` on are at least the one at `idx`. -/
theorem countP_ge_of_sorted (s : List ℚ) (hs : s.Sorted (· ≤ ·)) (idx : Nat) (x T : ℚ)
    (hx : s[idx]? = some x) (hT : T ≤ x) :
    s.length - idx ≤ s.countP (fun w => absGe (some w) (some T)) := by
  have hlt : idx < s.length := by
    by_contra hc
    rw [List.getElem?_eq_none (by omega)] at hx
    cases hx
  have hsplit : s = s.take idx ++ s.drop idx := (List.take_append_drop idx s).symm
  have hdrop : s.drop idx = x :: s.drop (idx + 1) := by
    rw [List.drop_eq_getElem_cons hlt]
    rw [List.getElem?_eq_getElem hlt] at hx
    simp only [Option.some.injEq] at hx
    rw [hx]
  have hsd : (s.drop idx).Sorted (· ≤ ·) := hs.sublist (List.drop_sublist idx s)
  have hall : ∀ w ∈ s.drop idx, absGe (some w) (some T) = true := by
    intro w hw
    have hxw : x ≤ w := by
      rw [hdrop] at hw hsd
      rcases List.mem_cons.mp hw with rfl | hw'
      · exact le_refl _
      · exact List.rel_of_sorted_cons hsd w hw'
    unfold absGe
    simp only [decide_eq_true_eq]
    exact le_trans (le_trans hT hxw) (le_abs_self w)
  have hcount : (s.drop idx).countP (fun w => absGe (some w) (some T)) = (s.drop idx).length :=
    List.countP_eq_length.mpr hall
  calc s.length - idx = (s.drop idx).length := by rw [List.length_drop]
    _ = (s.drop idx).countP (fun w => absGe (some w) (some T)) := hcount.symm
    _ ≤ (s.take idx).countP (fun w => absGe (some w) (some T))
          + (s.drop idx).countP (fun w => absGe (some w) (some T)) := Nat.le_add_left _ _
    _ = s.countP (fun w => absGe (some w) (some T)) := by
        rw [← List.countP_append, List.take_append_drop]

theorem defaultThreshold_of_perm (quicksort : List ℚ → List ℚ) (data : List ℚ) (numNodes : Nat)
    (hperm : (quicksort data).Perm data) (hpos : 0 < data.length) (hn : 0 < numNodes) :
    ∃ x, (quicksort data)[(max (0 : Int)
          (((quicksort data).length : Int) - (numNodes : Int) * 2)).toNat]? = some x ∧
      defaultThreshold quicksort data numNodes = some (min (15 - 1) x) := by
  have hidx : (max (0 : Int) (((quicksort data).length : Int) - (numNodes : Int) * 2)).toNat
      < (quicksort data).length := by
    have := hperm.length_eq
    omega
  refine ⟨(quicksort data).get ⟨_, hidx⟩, List.getElem?_eq_getElem hidx, ?_⟩
  unfold defaultThreshold
  simp only [ceiling_eq, List.getElem?_eq_getElem hidx]
  rfl

/-- C15: when the sort helper sorts ascending, a graph that `network2js`
returns for `N ≥ 2` nodes under its own default threshold has at least
`min(2N, N(N-1)/2)` edges, and at most `N(N-1)/2`; for `2 ≤ N ≤ 5` it has all
`N(N-1)/2` of them, every pair being an edge, and for `N = 6` it has at least
twelve, so never exactly one. -/
theorem network2js_edge_count (env : Env) (net : Network) (js : NetworkJs)
    (hN : 2 ≤ net.genes.length)
    (hsort : ∀ xs, (env.quicksort xs).Sorted (· ≤ ·) ∧ (env.quicksort xs).Perm xs)
    (hrun : (network2js env net).result = .ok js) :
    min (2 * net.genes.length) (numPairs net.genes.length) ≤ js.edges.length ∧
    js.edges.length ≤ numPairs net.genes.length ∧
    (net.genes.length ≤ 5 → js.edges.length = numPairs net.genes.length) ∧
    (net.genes.length = 6 → js.edges.length ≠ 1) := by
  obtain ⟨data, groups, cg, hdec, hedges, hthr, -, -, -, -⟩ := network2js_ok env net js hrun
  have hL := decodeScores_length _ _ _ hdec
  have hpos := numPairs_pos _ hN
  obtain ⟨hsorted, hperm⟩ := hsort data
  obtain ⟨x, hx, hT⟩ := defaultThreshold_of_perm env.quicksort data net.genes.length hperm
    (by omega) (by omega)
  rw [hthr, hT, buildEdges_eq] at hedges
  simp only [Except.ok.injEq] at hedges
  have hlen : js.edges.length = data.countP (fun w => absGe (some w) (some (min (15 - 1) x))) := by
    rw [← hedges, length_thresholdEdges]
    simp only [List.length_map, length_wrapGenes]
    exact hL
  have hlow := countP_ge_of_sorted (env.quicksort data) hsorted _ x (min (15 - 1) x) hx
    (min_le_right _ _)
  rw [hperm.countP_eq, hperm.length_eq, ← hlen] at hlow
  have hup : js.edges.length ≤ data.length := hlen ▸ List.countP_le_length _
  have hmin : min (2 * net.genes.length) (numPairs net.genes.length) ≤ js.edges.length := by
    rw [hL] at hlow
    omega
  refine ⟨hmin, hL ▸ hup, ?_, ?_⟩
  · intro h5
    have hle : numPairs net.genes.length ≤ 2 * net.genes.length := by
      generalize net.genes.length = n at hN h5
      interval_cases n <;> decide
    rw [hL] at hup
    omega
  · intro h6
    rw [h6] at hmin
    have h15 : numPairs 6 = 15 := rfl
    rw [h15] at hmin
    omega

/-- Witness of C15: the six-gene example has all its fifteen pairs as edges,
twelve at least. -/
theorem network2js_edge_count_witness :
    ∃ js, (network2js exampleEnv sixNetwork).result = .ok js ∧
      js.edges.length = 15 ∧
      min (2 * sixNetwork.genes.length) (numPairs sixNetwork.genes.length) ≤ js.edges.length ∧
      js.edges.length ≠ 1 := by
  obtain ⟨js, hjs⟩ := exists_ok_of_isOk (network2js exampleEnv sixNetwork).result (by decide!)
  have hval : (network2js exampleEnv sixNetwork).result.map (fun js => js.edges.length)
      = .ok 15 := by decide!
  rw [hjs] at hval
  simp only [Except.map, Except.ok.injEq] at hval
  obtain ⟨h1, -, -, h4⟩ := network2js_edge_count exampleEnv sixNetwork js (by decide)
    (fun xs => ⟨quicksortModel_sorted xs, quicksortModel_perm xs⟩) hjs
  exact ⟨js, hjs, hval, h1, h4 rfl⟩

/-! ## The cluster groups of a well-formed clustering result -/

theorem nodeId_of_lt (nodes : List Node) (k : Nat) (h : k < nodes.length) :
    nodeId nodes k = .ok (idAt nodes k) := by
  unfold nodeId idAt
  rw [List.getElem?_eq_getElem h]

theorem addExemplar_of_lt (nodes : List Node) (st : List ClusterGroup × (Nat → Option Nat))
    (e : Nat) (h : e < nodes.length) :
    addExemplar nodes st e
      = .ok (st.1 ++ [{ nodes := [], exemplar := idAt nodes e }],
          fun key => if key = e then some st.1.length else st.2 key) := by
  unfold addExemplar
  rw [nodeId_of_lt nodes e h]

theorem addToCluster_of_lt (nodes : List Node) (hash : Nat → Option Nat)
    (groups : List ClusterGroup) (p : Nat × Nat) (g : Nat) (hg : hash p.2 = some g)
    (h : p.1 < nodes.length) :
    addToCluster nodes hash groups p
      = .ok (groups.modify
          (fun group => { nodes := group.nodes ++ [idAt nodes p.1], exemplar := group.exemplar })
          g) := by
  unfold addToCluster
  rw [hg, nodeId_of_lt nodes p.1 h]

theorem addExemplars_run (nodes : List Node) (exemplars : List Nat) :
    exemplars.Nodup → (∀ e ∈ exemplars, e < nodes.length) →
    ∀ (groups : List ClusterGroup) (hash : Nat → Option Nat),
      ∃ hash', exemplars.foldlM (addExemplar nodes) (groups, hash)
          = .ok (groups ++ exemplars.map (fun e => { nodes := [], exemplar := idAt nodes e }),
              hash') ∧
        (∀ k e, exemplars[k]? = some e → hash' e = some (groups.length + k)) ∧
        (∀ key, key ∉ exemplars → hash' key = hash key) := by
  induction exemplars with
  | nil =>
    intro _ _ groups hash
    exact ⟨hash, by simp [pure, Except.pure], fun k e h => by simp at h, fun _ _ => rfl⟩
  | cons e exemplars ih =>
    intro hnd hlt groups hash
    rw [List.nodup_cons] at hnd
    obtain ⟨hash', hrun, hidx, hother⟩ := ih hnd.2
      (fun x hx => hlt x (List.mem_cons_of_mem _ hx))
      (groups ++ [{ nodes := [], exemplar := idAt nodes e }])
      (fun key => if key = e then some groups.length else hash key)
    refine ⟨hash', ?_, ?_, ?_⟩
    · rw [List.foldlM_cons, addExemplar_of_lt nodes _ e (hlt e (List.mem_cons_self _ _)),
        Except.ok_bind, hrun]
      simp
    · intro k x hk
      cases k with
      | zero =>
        simp only [List.getElem?_cons_zero, Option.some.injEq] at hk
        subst hk
        rw [hother e hnd.1]
        simp
      | succ k =>
        simp only [List.getElem?_cons_succ] at hk
        rw [hidx k x hk]
        simp
        omega
    · intro key hkey
      rw [List.mem_cons, not_or] at hkey
      rw [hother key hkey.2]
      simp [hkey.1]

theorem addToClusters_run (nodes : List Node) (hash : Nat → Option Nat)
    (l : List (Nat × Nat)) :
    (∀ p ∈ l, p.1 < nodes.length ∧ ∃ g, hash p.2 = some g) →
    ∀ groups : List ClusterGroup,
      ∃ groups', l.foldlM (addToCluster nodes hash) groups = .ok groups' ∧
        ∀ k : Nat, groups'[k]? = groups[k]?.map (fun group : ClusterGroup =>
          { nodes := group.nodes
              ++ (l.filter (fun p => hash p.2 = some k)).map (fun p => idAt nodes p.1),
            exemplar := group.exemplar }) := by
  induction l with
  | nil =>
    intro _ groups
    refine ⟨groups, rfl, fun k => ?_⟩
    cases groups[k]? <;> simp
  | cons p l ih =>
    intro hl groups
    obtain ⟨hp1, g, hg⟩ := hl p (List.mem_cons_self _ _)
    obtain ⟨groups', hrun, hspec⟩ := ih (fun x hx => hl x (List.mem_cons_of_mem _ hx))
      (groups.modify
        (fun group => { nodes := group.nodes ++ [idAt nodes p.1], exemplar := group.exemplar }) g)
    refine ⟨groups', ?_, fun k => ?_⟩
    · rw [List.foldlM_cons, addToCluster_of_lt nodes hash groups p g hg hp1, Except.ok_bind]
      exact hrun
    · rw [hspec k, List.getElem?_modify]
      by_cases hgk : g = k
      · subst hgk
        simp only [List.filter_cons, hg, decide_True, if_true, List.map_cons]
        cases groups[g]? <;> simp
      · have hne : ¬ (some g = some k) := by simpa using hgk
        simp only [List.filter_cons, hg, hne, decide_False, hgk, if_false]
        cases groups[k]? <;> simp

theorem getElem?_of_mem_enum {α : Type} (l : List α) (p : Nat × α) (h : p ∈ l.enum) :
    l[p.1]? = some p.2 := by
  obtain ⟨i, x⟩ := p
  obtain ⟨hi, hx⟩ := List.mem_enum h
  rw [List.getElem?_eq_getElem hi, hx]

theorem lt_of_getElem?_eq_some {α : Type} (l : List α) (k : Nat) (a : α) (h : l[k]? = some a) :
    k < l.length := by
  by_contra hc
  rw [List.getElem?_eq_none (by omega)] at h
  cases h

theorem getElem?_inj_of_nodup {α : Type} (l : List α) (hnd : l.Nodup) (j k : Nat) (a : α)
    (hj : l[j]? = some a) (hk : l[k]? = some a) : j = k := by
  have hjl := lt_of_getElem?_eq_some l j a hj
  have hkl := lt_of_getElem?_eq_some l k a hk
  rw [List.getElem?_eq_getElem hjl] at hj
  rw [List.getElem?_eq_getElem hkl] at hk
  exact (List.Nodup.getElem_inj_iff hnd).mp ((Option.some.inj hj).trans (Option.some.inj hk).symm)

/-- The groups built for a clustering result whose exemplars are distinct
node indices and whose `clusters` array assigns each of the first nodes to an
exemplar. -/
theorem fillClusterGroups_eq (nodes : List Node) (clusters : ClusterResult)
    (hnd : clusters.exemplars.Nodup)
    (hlt : ∀ e ∈ clusters.exemplars, e < nodes.length)
    (hlen : clusters.clusters.length ≤ nodes.length)
    (hmem : ∀ c ∈ clusters.clusters, c ∈ clusters.exemplars) :
    fillClusterGroups nodes clusters = .ok (clustersOf nodes clusters) := by
  obtain ⟨hash, hrun, hidx0, -⟩ := addExemplars_run nodes clusters.exemplars hnd hlt []
    (fun _ => none)
  have hidx : ∀ k e, clusters.exemplars[k]? = some e → hash e = some k := by
    intro k e h
    simpa using hidx0 k e h
  rw [List.nil_append] at hrun
  have hl : ∀ p ∈ clusters.clusters.enum, p.1 < nodes.length ∧ ∃ g, hash p.2 = some g := by
    intro p hp
    have hic := getElem?_of_mem_enum _ p hp
    have hi := lt_of_getElem?_eq_some _ _ _ hic
    obtain ⟨k, hk⟩ := List.mem_iff_getElem?.mp (hmem p.2 (List.getElem?_mem hic))
    exact ⟨Nat.lt_of_lt_of_le hi hlen, _, hidx k p.2 hk⟩
  obtain ⟨filled, hfill, hspec⟩ := addToClusters_run nodes hash clusters.clusters.enum hl
    (clusters.exemplars.map (fun e => { nodes := [], exemplar := idAt nodes e }))
  unfold fillClusterGroups
  rw [hrun]
  simp only []
  rw [hfill]
  congr 1
  apply List.ext_getElem?
  intro k
  rw [hspec k]
  unfold clustersOf
  simp only [List.getElem?_map]
  cases hk : clusters.exemplars[k]? with
  | none => rfl
  | some e =>
    simp only [Option.map_some', List.nil_append, Option.some.injEq, ClusterGroup.mk.injEq,
      and_true]
    unfold clusterMembers
    congr 1
    apply List.filter_congr
    intro p hp
    have hic := getElem?_of_mem_enum _ p hp
    obtain ⟨j, hj⟩ := List.mem_iff_getElem?.mp (hmem p.2 (List.getElem?_mem hic))
    rw [hidx j p.2 hj]
    simp only [Option.some.injEq]
    congr 1
    apply propext
    constructor
    · intro hjk
      subst hjk
      rw [hk] at hj
      exact (Option.some.inj hj).symm
    · intro hpe
      rw [hpe] at hj
      exact getElem?_inj_of_nodup _ hnd j k e hj hk

theorem getElem?_ids (nodes : List Node) (k : Nat) (h : k < nodes.length) :
    (nodes.map (fun node => node.data.id))[k]? = some (idAt nodes k) := by
  unfold idAt
  rw [List.getElem?_map, List.getElem?_eq_getElem h]
  rfl

theorem sum_indicator_of_not_mem (exs : List Nat) (a : Nat) (h : a ∉ exs) :
    (exs.map (fun e => if a = e then 1 else 0)).sum = 0 := by
  induction exs with
  | nil => rfl
  | cons x xs ih =>
    rw [List.mem_cons, not_or] at h
    simp [h.1, ih h.2]

theorem sum_indicator_of_mem (exs : List Nat) (hnd : exs.Nodup) (a : Nat) (h : a ∈ exs) :
    (exs.map (fun e => if a = e then 1 else 0)).sum = 1 := by
  induction exs with
  | nil => cases h
  | cons x xs ih =>
    rw [List.nodup_cons] at hnd
    by_cases hax : a = x
    · subst hax
      simp [sum_indicator_of_not_mem xs a hnd.1]
    · have hmem : a ∈ xs := by
        rcases List.mem_cons.mp h with h1 | h1
        · exact absurd h1 hax
        · exact h1
      simp [hax, ih hnd.2 hmem]

theorem sum_countP_exemplars (exs : List Nat) (hnd : exs.Nodup) (l : List (Nat × Nat))
    (hl : ∀ p ∈ l, p.2 ∈ exs) :
    (exs.map (fun e => l.countP (fun p => decide (p.2 = e)))).sum = l.length := by
  induction l with
  | nil => simp
  | cons p l ih =>
    have hfun : (fun e => (p :: l).countP (fun p => decide (p.2 = e)))
        = (fun e => l.countP (fun p => decide (p.2 = e)) + (if p.2 = e then 1 else 0)) := by
      funext e
      rw [List.countP_cons]
      simp
    rw [hfun, List.sum_map_add, ih (fun x hx => hl x (List.mem_cons_of_mem _ hx)),
      sum_indicator_of_mem exs hnd p.2 (hl p (List.mem_cons_self _ _))]
    rfl

/-- The sizes of the groups of `clustersOf` add up to the length of `clusters`. -/
theorem sum_length_clustersOf (nodes : List Node) (clusters : ClusterResult)
    (hnd : clusters.exemplars.Nodup)
    (hmem : ∀ c ∈ clusters.clusters, c ∈ clusters.exemplars) :
    ((clustersOf nodes clusters).map (fun c => c.nodes.length)).sum
      = clusters.clusters.length := by
  unfold clustersOf clusterMembers
  rw [List.map_map]
  have hfun : ((fun c : ClusterGroup => c.nodes.length) ∘ fun e =>
        ({ nodes := (clusters.clusters.enum.filter (fun p => decide (p.2 = e))).map
            (fun p => idAt nodes p.1), exemplar := idAt nodes e } : ClusterGroup))
      = (fun e => clusters.clusters.enum.countP (fun p => decide (p.2 = e))) := by
    funext e
    simp [List.countP_eq_length_filter]
  rw [hfun, sum_countP_exemplars _ hnd _
    (fun p hp => hmem p.2 (List.getElem?_mem (getElem?_of_mem_enum _ p hp)))]
  simp

/-- The exemplars whose group holds the id of node `i` are the exemplar of `i` alone. -/
theorem filter_clustersOf (nodes : List Node) (clusters : ClusterResult)
    (hids : (nodes.map (fun node => node.data.id)).Nodup)
    (hnd : clusters.exemplars.Nodup)
    (hlen : clusters.clusters.length ≤ nodes.length)
    (hmem : ∀ c ∈ clusters.clusters, c ∈ clusters.exemplars)
    (i e : Nat) (hi : i < nodes.length) (he : clusters.clusters[i]? = some e) :
    ((clustersOf nodes clusters).filter (fun c => decide (idAt nodes i ∈ c.nodes))).map
        (fun c => c.exemplar) = [idAt nodes e] := by
  have hiff : ∀ e', idAt nodes i ∈ clusterMembers nodes clusters.clusters e' ↔ e' = e := by
    intro e'
    unfold clusterMembers
    simp only [List.mem_map, List.mem_filter, decide_eq_true_eq]
    constructor
    · rintro ⟨p, ⟨hp, hpe⟩, hpid⟩
      have hic := getElem?_of_mem_enum _ p hp
      have hpl : p.1 < nodes.length :=
        Nat.lt_of_lt_of_le (lt_of_getElem?_eq_some _ _ _ hic) hlen
      have hpi : p.1 = i := by
        apply getElem?_inj_of_nodup _ hids p.1 i (idAt nodes i)
        · rw [getElem?_ids nodes p.1 hpl, hpid]
        · exact getElem?_ids nodes i hi
      rw [hpi, he] at hic
      rw [← hpe]
      exact (Option.some.inj hic).symm
    · intro hee
      subst hee
      exact ⟨(i, e'), ⟨List.mk_mem_enum_iff_getElem?.mpr he, rfl⟩, rfl⟩
  unfold clustersOf
  rw [List.filter_map, List.map_map]
  have hfilter : clusters.exemplars.filter ((fun c : ClusterGroup =>
        decide (idAt nodes i ∈ c.nodes)) ∘ fun e' =>
        ({ nodes := clusterMembers nodes clusters.clusters e', exemplar := idAt nodes e' }
          : ClusterGroup))
      = clusters.exemplars.filter (fun e' => decide (e' = e)) := by
    apply List.filter_congr
    intro e' _
    simp only [Function.comp, hiff e']
  rw [hfilter]
  have hsingle : clusters.exemplars.filter (fun e' => decide (e' = e)) = [e] := by
    have hemem : e ∈ clusters.exemplars := hmem e (List.getElem?_mem he)
    have hperm : (clusters.exemplars.filter (fun e' => decide (e' = e))).length = 1 := by
      rw [← List.countP_eq_length_filter]
      have := sum_indicator_of_mem clusters.exemplars hnd e hemem
      have hcount : ∀ l : List Nat, l.countP (fun e' => decide (e' = e))
          = (l.map (fun e' => if e = e' then 1 else 0)).sum := by
        intro l
        induction l with
        | nil => rfl
        | cons x xs ih =>
          rw [List.countP_cons, ih, List.map_cons, List.sum_cons]
          by_cases hx : x = e
          · simp [hx]; omega
          · have hx' : ¬ e = x := fun h => hx h.symm
            simp [hx, hx']
      rw [hcount, this]
    obtain ⟨x, hx⟩ := List.length_eq_one.mp hperm
    have hxe : x ∈ clusters.exemplars.filter (fun e' => decide (e' = e)) := by
      rw [hx]; exact List.mem_singleton_self x
    simp only [List.mem_filter, decide_eq_true_eq] at hxe
    rw [hx, hxe.2]
  rw [hsingle]
  rfl

theorem customStep_data (hashNodes : String → Option Nat) (customs : List CustomGroup)
    (groups0 groups : List Group) (genes : List Gene) (nodes : List Node)
    (h : addCustomGroups hashNodes customs (groups0, wrapGenes genes) = .ok (groups, nodes)) :
    nodes.map (fun node => node.data) = genes := by
  apply List.ext_getElem?
  intro k
  rw [List.getElem?_map, (addCustomGroups_spec _ _ _ _ h).2 k]
  unfold wrapGenes
  simp only [List.getElem?_map]
  cases genes[k]? with
  | none => rfl
  | some gene => simp [data_annotate]

/-- C16: on an input of `N > 4` nodes with pairwise distinct ids that reaches
the clustering block, when the clustering result that is kept has pairwise
distinct exemplars, all indices below `N`, and a `clusters` array of length `N`
whose entries are exemplars, `network2js` returns a graph whose cluster groups
are one per exemplar, with the ids of the exemplar nodes as `exemplar` fields;
the id of node `i` is in exactly one of them, the group of `clusters[i]`; and
the sizes of the cluster groups add up to `N`. -/
theorem network2js_cluster_partition (env : Env) (net : Network) (data : List ℚ)
    (clusters : ClusterResult)
    (hN : 4 < net.genes.length)
    (hdec : decodeScores net.buffer net.genes.length = .ok data)
    (hknown : GroupsKnown net)
    (hids : (net.genes.map (fun gene => gene.id)).Nodup)
    (hfinal : (getClustersRetry env data).2 = .ok clusters)
    (hnd : clusters.exemplars.Nodup)
    (hlt : ∀ e ∈ clusters.exemplars, e < net.genes.length)
    (hlen : clusters.clusters.length = net.genes.length)
    (hmem : ∀ c ∈ clusters.clusters, c ∈ clusters.exemplars) :
    ∃ js clusterGroups,
      (network2js env net).result = .ok js ∧
      js.groups = allGenesGroup (wrapGenes net.genes)
        :: (net.groups.map customGroup ++ clusterGroups ++ [mySelectionGroup]) ∧
      (∀ g ∈ clusterGroups, g.type = .cluster) ∧
      clusterGroups.length = clusters.exemplars.length ∧
      (clusterGroups.map (fun g => g.exemplar)).Perm
        (clusters.exemplars.map (fun e => net.genes[e]?.map (fun gene => gene.id))) ∧
      (∀ (i : Nat) (gene : Gene) (e : Nat),
        net.genes[i]? = some gene → clusters.clusters[i]? = some e →
        (clusterGroups.filter (fun g => gene.id ∈ g.nodes)).map (fun g => g.exemplar)
          = [net.genes[e]?.map (fun gene => gene.id)]) ∧
      (clusterGroups.map (fun g => g.nodes.length)).sum = net.genes.length := by
  obtain ⟨edges, hedges⟩ := buildEdges_total (wrapGenes net.genes) data
    (defaultThreshold env.quicksort data net.genes.length)
  obtain ⟨⟨groups, nodes⟩, hcust⟩ := addCustomGroups_of_known net hknown
    ([allGenesGroup (wrapGenes net.genes)], wrapGenes net.genes)
  have hgroups : groups = [allGenesGroup (wrapGenes net.genes)] ++ net.groups.map customGroup :=
    (addCustomGroups_spec _ _ _ _ hcust).1
  have hdata : nodes.map (fun node => node.data) = net.genes :=
    customStep_data _ _ _ _ _ _ hcust
  have hnl : nodes.length = net.genes.length := by
    rw [← hdata, List.length_map]
  have hnids : nodes.map (fun node => node.data.id) = net.genes.map (fun gene => gene.id) := by
    rw [← hdata, List.map_map]
    rfl
  have hidAt : ∀ k, k < net.genes.length →
      net.genes[k]?.map (fun gene => gene.id) = some (idAt nodes k) := by
    intro k hk
    rw [← List.getElem?_map, ← hnids]
    exact getElem?_ids nodes k (by omega)
  have hfill := fillClusterGroups_eq nodes clusters hnd (fun e he => hnl ▸ hlt e he)
    (by omega) hmem
  have hcreate : createClusterGroups nodes clusters
      = .ok ((sortBy (fun group => -(group.nodes.length : Int))
          (clustersOf nodes clusters)).enum.map nameCluster) := by
    unfold createClusterGroups
    rw [hfill]
  obtain ⟨-, hres⟩ := network2js_of_stages env net data edges groups nodes hdec hedges hcust
  rw [clusterStep_large env data nodes _ hN] at hres
  simp only [hfinal, hcreate] at hres
  have hperm := sortBy_perm (fun group : ClusterGroup => -(group.nodes.length : Int))
    (clustersOf nodes clusters)
  refine ⟨_, _, hres, by simp [hgroups], createClusterGroups_type _ _ _ hcreate, ?_, ?_, ?_, ?_⟩
  · rw [List.length_map, List.enum_length, hperm.length_eq]
    simp [clustersOf]
  · rw [map_named (fun g => g.exemplar) (fun c => some c.exemplar) (fun _ _ => rfl)]
    refine (hperm.map _).trans ?_
    unfold clustersOf
    rw [List.map_map]
    have : clusters.exemplars.map ((fun c : ClusterGroup => some c.exemplar) ∘ fun e =>
          ({ nodes := clusterMembers nodes clusters.clusters e, exemplar := idAt nodes e }
            : ClusterGroup))
        = clusters.exemplars.map (fun e => net.genes[e]?.map (fun gene => gene.id)) := by
      apply List.map_congr_left
      intro e he
      rw [hidAt e (hlt e he)]
      rfl
    rw [this]
  · intro i gene e hi he
    have hil : i < net.genes.length := lt_of_getElem?_eq_some _ _ _ hi
    have hgid : gene.id = idAt nodes i := by
      have := hidAt i hil
      rw [hi] at this
      exact Option.some.inj this
    have hel : e < net.genes.length := hlt e (hmem e (List.getElem?_mem he))
    rw [hidAt e hel, hgid]
    have hnamed := filter_named (fun g => decide (idAt nodes i ∈ g.nodes))
      (fun c => decide (idAt nodes i ∈ c.nodes)) (fun _ _ => rfl)
      (sortBy (fun group => -(group.nodes.length : Int)) (clustersOf nodes clusters))
    have hfst := congrArg (List.map Prod.fst) hnamed
    rw [List.map_map, List.map_map] at hfst
    have hl : ((sortBy (fun group => -(group.nodes.length : Int))
          (clustersOf nodes clusters)).filter
          (fun c => decide (idAt nodes i ∈ c.nodes))).map (fun c => some c.exemplar)
        = [some (idAt nodes e)] := by
      apply List.Perm.eq_singleton
      refine ((hperm.filter _).map _).trans ?_
      have hf := filter_clustersOf nodes clusters (hnids ▸ hids) hnd (by omega) hmem i e
        (by omega) he
      have hf2 := congrArg (List.map some) hf
      rw [List.map_map] at hf2
      rw [show (fun c : ClusterGroup => some c.exemplar) = some ∘ (fun c => c.exemplar) from rfl,
        hf2]
      rfl
    exact hfst.trans hl
  · rw [map_named (fun g => g.nodes.length) (fun c => c.nodes.length) (fun _ _ => rfl),
      (hperm.map _).sum_eq, sum_length_clustersOf nodes clusters hnd hmem, hlen]

/-- Witness of C16: on the five-gene example the clustering that is kept has
the exemplars `0` and `3` and the assignment `[0, 0, 3, 3, 3]`. -/
theorem network2js_cluster_partition_witness :
    ∃ js clusterGroups,
      (network2js exampleEnv exampleNetwork).result = .ok js ∧
      js.groups = allGenesGroup (wrapGenes exampleNetwork.genes)
        :: (exampleNetwork.groups.map customGroup ++ clusterGroups ++ [mySelectionGroup]) ∧
      clusterGroups.length = 2 ∧
      (clusterGroups.map (fun g => g.exemplar)).Perm [some "a", some "d"] ∧
      (clusterGroups.map (fun g => g.nodes.length)).sum = 5 := by
  obtain ⟨js, cg, h1, h2, -, h3, h4, -, h5⟩ := network2js_cluster_partition exampleEnv
    exampleNetwork [1, -2, 3, 0, 5 / 1000, 6 / 1000, 7 / 1000, 8 / 1000, 9 / 1000, 10 / 1000]
    { exemplars := [0, 3], clusters := [0, 0, 3, 3, 3] }
    (by decide) (by decide!) (by decide) (by decide) (by decide!) (by decide) (by decide)
    (by decide) (by decide)
  exact ⟨js, cg, h1, h2, h3, h4, h5⟩

end GeneNetwork
